import Mathlib

/-!
# ai-finance-tracker: client-side session and transaction services

A shallow embedding of the JavaScript sources

* `frontend/src/services/authService.js`
* `frontend/src/services/transactionService.js`
* `frontend/src/components/TransactionForm.js`
* `frontend/src/pages/Dashboard.js`

The first part models the pieces of the JavaScript platform the sources rely on
(values, truthiness, property access, string conversion, `localStorage`,
`JSON.stringify`, `JSON.parse`, number division).  The second part embeds the
source functions, one definition per source function, in a small
state-and-exception monad.  The last part states and proves the properties.

Modelling conventions.

* Finite numbers are exact rationals: rounding to the nearest double and the
  sign of zero are not modelled.  Division by zero, `NaN` and the infinities
  follow IEEE-754.
* An object is its list of own properties in insertion order; the platform's
  reordering of integer-like keys and prototype members are not modelled.
* A string is a sequence of Unicode scalar values, not of UTF-16 code units.
* `JS.setItem` is a write the storage has room for.  Where a property depends
  on a write being refused, the source function is embedded a second time over
  `BoundedStorage.setItem`, which throws `QuotaExceededError` when the storage
  would outgrow its capacity (counted in characters of keys and values).
* The HTTP client `api` (module `./api`) is a parameter: a function that, given
  the current storage (it attaches the bearer token) and a request, either
  resolves with a response or rejects with a value.  It does not write storage.
-/

namespace FinanceTracker

/-! ## JavaScript values -/

/-- A JavaScript number: a finite value, `NaN`, `Infinity` or `-Infinity`. -/
inductive JSNum where
  | fin (q : ℚ)
  | nan
  | posInf
  | negInf
  deriving DecidableEq, Repr

/-- A JavaScript value as far as JSON payloads and the sources need it. -/
inductive JSVal where
  | undefined
  | null
  | bool (b : Bool)
  | num (n : JSNum)
  | str (s : String)
  | arr (xs : List JSVal)
  | obj (fields : List (String × JSVal))
  deriving Repr

instance : Inhabited JSVal := ⟨JSVal.undefined⟩

namespace JSVal

mutual
/-- Structural equality test on values. -/
def beq : JSVal → JSVal → Bool
  | undefined, undefined => true
  | null, null => true
  | bool a, bool b => a == b
  | num a, num b => a == b
  | str a, str b => a == b
  | arr xs, arr ys => beqList xs ys
  | obj fs, obj gs => beqFields fs gs
  | _, _ => false
termination_by structural a => a
/-- Structural equality test on element lists. -/
def beqList : List JSVal → List JSVal → Bool
  | [], [] => true
  | x :: xs, y :: ys => beq x y && beqList xs ys
  | _, _ => false
termination_by structural a => a
/-- Structural equality test on property lists. -/
def beqFields : List (String × JSVal) → List (String × JSVal) → Bool
  | [], [] => true
  | (k, x) :: xs, (l, y) :: ys => k == l && beq x y && beqFields xs ys
  | _, _ => false
termination_by structural a => a
end

mutual
theorem eq_of_beq : ∀ (a b : JSVal), beq a b = true → a = b
  | undefined, b, h => by cases b <;> simp_all [beq]
  | null, b, h => by cases b <;> simp_all [beq]
  | bool a, b, h => by cases b <;> simp_all [beq]
  | num a, b, h => by cases b <;> simp_all [beq]
  | str a, b, h => by cases b <;> simp_all [beq]
  | arr xs, b, h => by
    cases b <;> simp [beq] at h
    rename_i ys
    exact congrArg arr (eq_of_beqList xs ys h)
  | obj fs, b, h => by
    cases b <;> simp [beq] at h
    rename_i gs
    exact congrArg obj (eq_of_beqFields fs gs h)
termination_by structural a => a
theorem eq_of_beqList : ∀ (a b : List JSVal), beqList a b = true → a = b
  | [], b, h => by cases b <;> simp_all [beqList]
  | x :: xs, b, h => by
    cases b with
    | nil => simp [beqList] at h
    | cons y ys =>
      simp [beqList] at h
      rw [eq_of_beq x y h.1, eq_of_beqList xs ys h.2]
termination_by structural a => a
theorem eq_of_beqFields : ∀ (a b : List (String × JSVal)), beqFields a b = true → a = b
  | [], b, h => by cases b <;> simp_all [beqFields]
  | (k, x) :: xs, b, h => by
    cases b with
    | nil => simp [beqFields] at h
    | cons p ys =>
      obtain ⟨l, y⟩ := p
      simp [beqFields] at h
      rw [h.1.1, eq_of_beq x y h.1.2, eq_of_beqFields xs ys h.2]
termination_by structural a => a
end

mutual
theorem beq_self : ∀ (a : JSVal), beq a a = true
  | undefined => by simp [beq]
  | null => by simp [beq]
  | bool a => by simp [beq]
  | num a => by simp [beq]
  | str a => by simp [beq]
  | arr xs => by simp [beq, beqList_self xs]
  | obj fs => by simp [beq, beqFields_self fs]
termination_by structural a => a
theorem beqList_self : ∀ (a : List JSVal), beqList a a = true
  | [] => by simp [beqList]
  | x :: xs => by simp [beqList, beq_self x, beqList_self xs]
termination_by structural a => a
theorem beqFields_self : ∀ (a : List (String × JSVal)), beqFields a a = true
  | [] => by simp [beqFields]
  | (k, x) :: xs => by simp [beqFields, beq_self x, beqFields_self xs]
termination_by structural a => a
end

instance : DecidableEq JSVal := fun a b =>
  if h : beq a b = true then isTrue (eq_of_beq a b h)
  else isFalse (fun e => h (e ▸ beq_self a))


end JSVal

deriving instance DecidableEq for Except

/-- A thrown value: an engine `TypeError`, a `SyntaxError` of `JSON.parse`, the
`QuotaExceededError` of a refused storage write, or the value a rejected `api`
promise carries. -/
inductive Thrown where
  | typeError
  | syntaxError
  | quotaExceeded
  | rejected (v : JSVal)
  deriving Repr, DecidableEq

namespace JSNum

/-- The number is neither `NaN` nor an infinity. -/
def isFinite : JSNum → Bool
  | fin _ => true
  | _ => false

/-- Number division `a / b` (IEEE-754 special cases, exact otherwise). -/
def div : JSNum → JSNum → JSNum
  | nan, _ => nan
  | _, nan => nan
  | fin a, fin b =>
    if b = 0 then (if a = 0 then nan else if 0 < a then posInf else negInf)
    else fin (a / b)
  | fin _, posInf => fin 0
  | fin _, negInf => fin 0
  | posInf, fin b => if 0 ≤ b then posInf else negInf
  | negInf, fin b => if 0 ≤ b then negInf else posInf
  | posInf, posInf => nan
  | posInf, negInf => nan
  | negInf, posInf => nan
  | negInf, negInf => nan

/-- Number multiplication `a * b` (IEEE-754 special cases, exact otherwise). -/
def mul : JSNum → JSNum → JSNum
  | nan, _ => nan
  | _, nan => nan
  | fin a, fin b => fin (a * b)
  | fin a, posInf => if a = 0 then nan else if 0 < a then posInf else negInf
  | fin a, negInf => if a = 0 then nan else if 0 < a then negInf else posInf
  | posInf, fin b => if b = 0 then nan else if 0 < b then posInf else negInf
  | negInf, fin b => if b = 0 then nan else if 0 < b then negInf else posInf
  | posInf, posInf => posInf
  | posInf, negInf => negInf
  | negInf, posInf => negInf
  | negInf, negInf => posInf

/-- Decimal digit character of a value below ten. -/
def digitChar (d : Nat) : Char := Char.ofNat (48 + d % 10)

/-- Decimal digits of a natural number, most significant first. -/
def natDigits (n : Nat) : List Char := (Nat.toDigits 10 n)

/-- Up to `k` digits of the decimal expansion of `r / d` (with `r < d`),
stopping early when the expansion terminates. -/
def fracDigits : Nat → Nat → Nat → List Char
  | 0, _, _ => []
  | k + 1, r, d =>
    if r = 0 then [] else digitChar ((r * 10) / d) :: fracDigits k ((r * 10) % d) d

/-- Platform operation `Number.prototype.toString()`: exact for the non-finite values and for
integers below `10^21`; a non-integer is printed with its decimal expansion
(at most 17 fractional digits) instead of the shortest round-trip digits. -/
def toJSString : JSNum → String
  | nan => "NaN"
  | posInf => "Infinity"
  | negInf => "-Infinity"
  | fin q =>
    let n := q.num.natAbs
    let frac := fracDigits 17 (n % q.den) q.den
    String.mk ((if q.num < 0 then [ '-' ] else []) ++ natDigits (n / q.den)
      ++ (if frac.isEmpty then [] else '.' :: frac))

/-- Platform operation `Number.prototype.toFixed(1)`: the non-finite values
print as their names; a finite value of magnitude below `10^21` is rounded to
the nearest tenth, ties away from zero, and keeps its sign; a larger one prints
as `toString` does. -/
def toFixed1 : JSNum → String
  | nan => "NaN"
  | posInf => "Infinity"
  | negInf => "-Infinity"
  | fin q =>
    let a := |q|
    if (10 : ℚ) ^ 21 ≤ a then toJSString (fin q)
    else
      let t := (Rat.floor (a * 10 + 1 / 2)).natAbs
      String.mk ((if q < 0 then [ '-' ] else []) ++ natDigits (t / 10)
        ++ [ '.', digitChar (t % 10) ])

end JSNum

namespace JSVal

/-- Platform operation `ToBoolean`: `undefined`, `null`, `false`, `0`, `NaN` and `""` are falsy. -/
def truthy : JSVal → Bool
  | undefined => false
  | null => false
  | bool b => b
  | num (JSNum.fin q) => q ≠ 0
  | num JSNum.nan => false
  | num _ => true
  | str s => s ≠ ""
  | arr _ => true
  | obj _ => true

/-- Platform operation `Array.isArray`. -/
def isArray : JSVal → Bool
  | arr _ => true
  | _ => false

/-- The value is `undefined` or `null`. -/
def isNullish : JSVal → Bool
  | undefined => true
  | null => true
  | _ => false

/-- Own-property lookup in a property list (keys are unique; the first entry
of a key is the property). -/
def lookupField (k : String) : List (String × JSVal) → JSVal
  | [] => undefined
  | (k1, v) :: rest => if k1 = k then v else lookupField k rest

/-- Property read `v.k` for a data property name `k`: a `TypeError` on
`undefined` and `null`; an own property of an object; `length` of an array or
string; `undefined` otherwise.  (Array indices and prototype members are not
modelled: the sources read none through this operation.) -/
def getProp (v : JSVal) (k : String) : Except Thrown JSVal :=
  match v with
  | undefined => .error .typeError
  | null => .error .typeError
  | obj fields => .ok (lookupField k fields)
  | arr xs => .ok (if k = "length" then num (.fin xs.length) else undefined)
  | str s => .ok (if k = "length" then num (.fin s.length) else undefined)
  | _ => .ok undefined

/-- Optional chaining `v?.k`: `undefined` on `undefined` and `null`. -/
def getPropOpt (v : JSVal) (k : String) : JSVal :=
  match getProp v k with
  | .ok x => x
  | .error _ => undefined

/-- The operator `a || b`. -/
def or (a b : JSVal) : JSVal := if a.truthy then a else b

mutual
/-- Platform operation `ToString`, as applied by `localStorage.setItem` to a non-string value. -/
def toJSString : JSVal → String
  | undefined => "undefined"
  | null => "null"
  | bool b => if b then "true" else "false"
  | num n => n.toJSString
  | str s => s
  | arr xs => joinElems xs
  | obj _ => "[object Object]"
termination_by structural v => v
/-- Platform operation `Array.prototype.join(",")`: `undefined` and `null` elements print empty. -/
def joinElems : List JSVal → String
  | [] => ""
  | x :: rest =>
    (if x.isNullish then "" else toJSString x) ++ (if rest.isEmpty then "" else ",")
      ++ joinElems rest
termination_by structural xs => xs
end

end JSVal

/-! ## JSON text -/

namespace JSON

/-- The double quote character. -/
def quoteCh : Char := Char.ofNat 34

/-- The reverse solidus character. -/
def escapeCh : Char := Char.ofNat 92

/-- Hexadecimal digit character of a value below sixteen. -/
def hexChar (d : Nat) : Char :=
  if d % 16 < 10 then Char.ofNat (48 + d % 16) else Char.ofNat (87 + d % 16)

/-- The text of one string character inside a JSON string literal. -/
def quoteChar (c : Char) : List Char :=
  if c = quoteCh then [escapeCh, quoteCh]
  else if c = escapeCh then [escapeCh, escapeCh]
  else if c.toNat = 8 then [escapeCh, 'b']
  else if c.toNat = 12 then [escapeCh, 'f']
  else if c.toNat = 10 then [escapeCh, 'n']
  else if c.toNat = 13 then [escapeCh, 'r']
  else if c.toNat = 9 then [escapeCh, 't']
  else if c.toNat < 32 then [escapeCh, 'u', '0', '0', hexChar (c.toNat / 16), hexChar c.toNat]
  else [c]

/-- A string as a JSON string literal. -/
def quoteString (s : String) : List Char :=
  quoteCh :: (s.data.flatMap quoteChar ++ [quoteCh])

/-- Join texts with commas. -/
def commaJoin : List (List Char) → List Char
  | [] => []
  | [t] => t
  | t :: rest => t ++ ',' :: commaJoin rest

mutual
/-- The text `JSON.stringify` produces for a value, `none` when it produces
`undefined` (the value is `undefined`). -/
def stringifyVal : JSVal → Option (List Char)
  | .undefined => none
  | .null => some "null".data
  | .bool b => some (if b then "true".data else "false".data)
  | .num n => some (if n.isFinite then n.toJSString.data else "null".data)
  | .str s => some (quoteString s)
  | .arr xs => some ('[' :: (commaJoin (stringifyElems xs) ++ [ ']' ]))
  | .obj fields =>
    some (Char.ofNat 123 :: (commaJoin (stringifyFields fields) ++ [Char.ofNat 125]))
termination_by structural v => v
/-- Element texts of an array: an `undefined` element prints as `null`. -/
def stringifyElems : List JSVal → List (List Char)
  | [] => []
  | x :: rest =>
    (match stringifyVal x with
      | some t => t
      | none => "null".data) :: stringifyElems rest
termination_by structural xs => xs
/-- Member texts of an object: a member whose value is `undefined` is omitted. -/
def stringifyFields : List (String × JSVal) → List (List Char)
  | [] => []
  | (k, v) :: rest =>
    match stringifyVal v with
    | some t => (quoteString k ++ ':' :: t) :: stringifyFields rest
    | none => stringifyFields rest
termination_by structural fs => fs
end

/-- Platform operation `JSON.stringify(v)`: a string, or `undefined` when `v` is `undefined`. -/
def stringify (v : JSVal) : JSVal :=
  match stringifyVal v with
  | some t => .str (String.mk t)
  | none => .undefined

/-- JSON whitespace. -/
def isWs (c : Char) : Bool := c = ' ' || c.toNat = 9 || c.toNat = 10 || c.toNat = 13

/-- Drop leading whitespace. -/
def skipWs : List Char → List Char
  | [] => []
  | c :: cs => if isWs c then skipWs cs else c :: cs

/-- Value of a hexadecimal digit. -/
def hexVal (c : Char) : Option Nat :=
  if '0' ≤ c ∧ c ≤ '9' then some (c.toNat - 48)
  else if 'a' ≤ c ∧ c ≤ 'f' then some (c.toNat - 87)
  else if 'A' ≤ c ∧ c ≤ 'F' then some (c.toNat - 55)
  else none

/-- The character a single-letter escape stands for. -/
def unescape (c : Char) : Option Char :=
  if c = quoteCh then some quoteCh
  else if c = escapeCh then some escapeCh
  else if c = '/' then some '/'
  else if c = 'b' then some (Char.ofNat 8)
  else if c = 'f' then some (Char.ofNat 12)
  else if c = 'n' then some (Char.ofNat 10)
  else if c = 'r' then some (Char.ofNat 13)
  else if c = 't' then some (Char.ofNat 9)
  else none

/-- The rest of a string literal after its opening quote: the decoded
characters (in reverse in `acc`) and the text after the closing quote.
A `\u` escape in the surrogate range is not combined with its partner. -/
def parseStringBody : Nat → List Char → List Char → Option (String × List Char)
  | 0, _, _ => none
  | _ + 1, [], _ => none
  | fuel + 1, c :: cs, acc =>
    if c = quoteCh then some (String.mk acc.reverse, cs)
    else if c = escapeCh then
      match cs with
      | 'u' :: h1 :: h2 :: h3 :: h4 :: cs2 =>
        match hexVal h1, hexVal h2, hexVal h3, hexVal h4 with
        | some a, some b, some c3, some d =>
          parseStringBody fuel cs2 (Char.ofNat (((a * 16 + b) * 16 + c3) * 16 + d) :: acc)
        | _, _, _, _ => none
      | e :: cs2 =>
        match unescape e with
        | some ch => parseStringBody fuel cs2 (ch :: acc)
        | none => none
      | [] => none
    else if c.toNat < 32 then none
    else parseStringBody fuel cs (c :: acc)

/-- Leading decimal digits of a text and the rest. -/
def takeDigits : List Char → List Char × List Char
  | [] => ([], [])
  | c :: cs =>
    if c.isDigit then ((takeDigits cs).1.cons c, (takeDigits cs).2) else ([], c :: cs)

/-- Value of a digit sequence. -/
def digitsVal (ds : List Char) : Nat :=
  ds.foldl (fun n c => n * 10 + (c.toNat - 48)) 0

/-- The number a literal denotes: overflow gives an infinity. -/
def mkNumber (neg : Bool) (int frac : List Char) (expNeg : Bool) (exp : List Char) : JSNum :=
  let m : ℚ := (digitsVal (int ++ frac) : ℚ) / (10 : ℚ) ^ frac.length
  let v : ℚ := if expNeg then m / (10 : ℚ) ^ digitsVal exp else m * (10 : ℚ) ^ digitsVal exp
  if (2 : ℚ) ^ 1024 - (2 : ℚ) ^ 970 ≤ v then (if neg then .negInf else .posInf)
  else .fin (if neg then -v else v)

/-- A JSON number literal at the head of the text (after an optional minus
sign): `int frac? exp?`, no leading zeros. -/
def parseNumber (neg : Bool) (cs : List Char) : Option (JSNum × List Char) :=
  match takeDigits cs with
  | ([], _) => none
  | (int, rest) =>
    if int.length > 1 ∧ int.head? = some '0' then none
    else
      let fracPart : Option (List Char × List Char) :=
        match rest with
        | '.' :: r1 =>
          match takeDigits r1 with
          | ([], _) => none
          | (fr, r2) => some (fr, r2)
        | _ => some ([], rest)
      match fracPart with
      | none => none
      | some (fr, r2) =>
        let expPart : Option (Bool × List Char × List Char) :=
          match r2 with
          | e :: r3 =>
            if e = 'e' ∨ e = 'E' then
              match r3 with
              | '-' :: r4 =>
                match takeDigits r4 with
                | ([], _) => none
                | (ex, r5) => some (true, ex, r5)
              | '+' :: r4 =>
                match takeDigits r4 with
                | ([], _) => none
                | (ex, r5) => some (false, ex, r5)
              | _ =>
                match takeDigits r3 with
                | ([], _) => none
                | (ex, r5) => some (false, ex, r5)
            else some (false, [], r2)
          | [] => some (false, [], r2)
        match expPart with
        | none => none
        | some (en, ex, r5) => some (mkNumber neg int fr en ex, r5)

/-- Define property `k` of a property list: an existing entry is overwritten
in place, a new one is appended. -/
def setField (k : String) (v : JSVal) : List (String × JSVal) → List (String × JSVal)
  | [] => [(k, v)]
  | (k1, v1) :: rest => if k1 = k then (k1, v) :: rest else (k1, v1) :: setField k v rest

mutual
/-- A JSON value at the head of the text (leading whitespace allowed), and
the text after it. -/
def parseValue : Nat → List Char → Option (JSVal × List Char)
  | 0, _ => none
  | fuel + 1, cs =>
    match skipWs cs with
    | [] => none
    | c :: rest =>
      if c = Char.ofNat 123 then
        match skipWs rest with
        | c2 :: rest2 =>
          if c2 = Char.ofNat 125 then some (.obj [], rest2)
          else parseMembers fuel (c2 :: rest2) []
        | [] => none
      else if c = '[' then
        match skipWs rest with
        | c2 :: rest2 =>
          if c2 = ']' then some (.arr [], rest2)
          else parseElements fuel (c2 :: rest2) []
        | [] => none
      else if c = quoteCh then
        match parseStringBody (rest.length + 1) rest [] with
        | some (s, rest2) => some (.str s, rest2)
        | none => none
      else if c = '-' then
        match parseNumber true rest with
        | some (n, rest2) => some (.num n, rest2)
        | none => none
      else if c.isDigit then
        match parseNumber false (c :: rest) with
        | some (n, rest2) => some (.num n, rest2)
        | none => none
      else
        match c :: rest with
        | 'n' :: 'u' :: 'l' :: 'l' :: rest2 => some (.null, rest2)
        | 't' :: 'r' :: 'u' :: 'e' :: rest2 => some (.bool true, rest2)
        | 'f' :: 'a' :: 'l' :: 's' :: 'e' :: rest2 => some (.bool false, rest2)
        | _ => none
/-- The elements of an array after `[` (at least one), up to and including
the closing bracket; `acc` holds the elements read so far. -/
def parseElements : Nat → List Char → List JSVal → Option (JSVal × List Char)
  | 0, _, _ => none
  | fuel + 1, cs, acc =>
    match parseValue fuel cs with
    | none => none
    | some (v, rest) =>
      match skipWs rest with
      | c :: rest2 =>
        if c = ',' then parseElements fuel rest2 (acc ++ [v])
        else if c = ']' then some (.arr (acc ++ [v]), rest2)
        else none
      | [] => none
/-- The members of an object after the opening brace (at least one), up to
and including the closing brace; `acc` holds the members read so far. -/
def parseMembers : Nat → List Char → List (String × JSVal) → Option (JSVal × List Char)
  | 0, _, _ => none
  | fuel + 1, cs, acc =>
    match skipWs cs with
    | c :: rest =>
      if c = quoteCh then
        match parseStringBody (rest.length + 1) rest [] with
        | none => none
        | some (k, rest2) =>
          match skipWs rest2 with
          | c2 :: rest3 =>
            if c2 = ':' then
              match parseValue fuel rest3 with
              | none => none
              | some (v, rest4) =>
                match skipWs rest4 with
                | c3 :: rest5 =>
                  if c3 = ',' then parseMembers fuel rest5 (setField k v acc)
                  else if c3 = Char.ofNat 125 then some (.obj (setField k v acc), rest5)
                  else none
                | [] => none
            else none
          | [] => none
      else none
    | [] => none
end

/-- Platform operation `JSON.parse(text)`: the value the text denotes, or a `SyntaxError` when the
text is not a single JSON value surrounded by optional whitespace. -/
def parse (text : String) : Except Thrown JSVal :=
  match parseValue (2 * text.length + 2) text.data with
  | some (v, rest) =>
    match skipWs rest with
    | [] => .ok v
    | _ :: _ => .error .syntaxError
  | none => .error .syntaxError

end JSON

/-! ## Storage, requests and effects -/

/-- The contents of `localStorage`: string values under string keys. -/
abbrev Storage := List (String × String)

namespace Storage

/-- Platform operation `localStorage.getItem(k)`: the stored string, `none` for JavaScript `null`. -/
def getItem (k : String) : Storage → Option String
  | [] => none
  | (k1, v) :: rest => if k1 = k then some v else getItem k rest

/-- Platform operation `localStorage.removeItem(k)`. -/
def removeItem (k : String) (st : Storage) : Storage :=
  st.filter (fun p => p.1 ≠ k)

/-- Platform operation `localStorage.setItem(k, v)` for a string `v`. -/
def setItem (k v : String) : Storage → Storage
  | [] => [(k, v)]
  | (k1, v1) :: rest => if k1 = k then (k, v) :: rest else (k1, v1) :: setItem k v rest

end Storage

/-- An HTTP request issued through `api`. -/
structure Request where
  method : String
  url : String
  body : JSVal
  deriving DecidableEq, Repr

/-- A resolved response of `api`; the sources read only its `data`. -/
structure Response where
  data : JSVal
  deriving DecidableEq, Repr

/-- Modelled from the spec: the HTTP client of module `./api` (not among the
sources), "HTTP/JSON REST endpoints ... authenticated via bearer access token
attached per-request by an external collaborator".  Given the storage it reads
the token from and a request, it resolves with a response or rejects with a
value; it writes nothing. -/
abbrev Api := Storage → Request → Except JSVal Response

/-- What a run can observe and change: the storage, the requests issued so far
(oldest first) and the values passed to `console.error`. -/
structure World where
  storage : Storage
  requests : List Request
  console : List Thrown
  deriving DecidableEq, Repr

/-- A computation: from a world to a completion (a value or a thrown value)
and the world it leaves behind. -/
def JS (α : Type) : Type := World → Except Thrown α × World

namespace JS

/-- Return a value. -/
def ret {α : Type} (a : α) : JS α := fun w => (.ok a, w)

/-- Sequencing: a thrown value ends the computation, keeping the world. -/
def seq {α β : Type} (m : JS α) (f : α → JS β) : JS β := fun w =>
  match m w with
  | (.ok a, w1) => f a w1
  | (.error e, w1) => (.error e, w1)

instance : Monad JS where
  pure := ret
  bind := seq

/-- Complete with the outcome of a pure operation that may throw. -/
def lift {α : Type} (r : Except Thrown α) : JS α := fun w => (r, w)

/-- Platform operation `localStorage.getItem(k)` as a value: the string or `null`. -/
def getItem (k : String) : JS JSVal := fun w =>
  (.ok (match w.storage.getItem k with
    | some s => .str s
    | none => .null), w)

/-- Platform operation `localStorage.setItem(k, v)` on a storage with room for
the write: the value is converted to a string.  (`BoundedStorage.setItem` is
the write on a storage of limited capacity.) -/
def setItem (k : String) (v : JSVal) : JS Unit := fun w =>
  (.ok (), { w with storage := w.storage.setItem k v.toJSString })

/-- Platform operation `localStorage.removeItem(k)`. -/
def removeItem (k : String) : JS Unit := fun w =>
  (.ok (), { w with storage := w.storage.removeItem k })

/-- Platform operation `console.error(label, e)`. -/
def consoleError (e : Thrown) : JS Unit := fun w =>
  (.ok (), { w with console := w.console ++ [e] })

/-- Platform operation `await api.<method>(url, body)`: the request is recorded; a rejection is
thrown at the `await`. -/
def request (api : Api) (method url : String) (body : JSVal) : JS Response := fun w =>
  let req : Request := { method := method, url := url, body := body }
  let w1 : World := { w with requests := w.requests ++ [req] }
  match api w.storage req with
  | .ok resp => (.ok resp, w1)
  | .error e => (.error (.rejected e), w1)

/-- The statement `try body catch (e) handler(e) finally cleanup`. -/
def tryCatchFinally {α : Type} (body : JS α) (handler : Thrown → JS α)
    (cleanup : JS Unit) : JS α := fun w =>
  let r1 : Except Thrown α × World :=
    match body w with
    | (.ok a, w1) => (.ok a, w1)
    | (.error e, w1) => handler e w1
  match cleanup r1.2 with
  | (.ok _, w2) => (r1.1, w2)
  | (.error e, w2) => (.error e, w2)

/-- The statement `try body catch (e) handler(e)`. -/
def tryCatch {α : Type} (body : JS α) (handler : Thrown → JS α) : JS α :=
  tryCatchFinally body handler (ret ())

end JS

/-! ## `services/authService.js` -/

namespace authService

open JS

/-- Source: `authService.register`.
```
register: async (userData) => {
  const response = await api.post('/auth/register/', userData);
  if (response.data.tokens) {
    localStorage.setItem('access_token', response.data.tokens.access);
    localStorage.setItem('refresh_token', response.data.tokens.refresh);
    localStorage.setItem('user', JSON.stringify(response.data.user));
  }
  return response.data;
}
``` -/
def register (api : Api) (userData : JSVal) : JS JSVal := do
  let response ← request api "POST" "/auth/register/" userData
  let tokens ← lift (response.data.getProp "tokens")
  if tokens.truthy then
    let tokens1 ← lift (response.data.getProp "tokens")
    let access ← lift (tokens1.getProp "access")
    setItem "access_token" access
    let tokens2 ← lift (response.data.getProp "tokens")
    let refresh ← lift (tokens2.getProp "refresh")
    setItem "refresh_token" refresh
    let user ← lift (response.data.getProp "user")
    setItem "user" (JSON.stringify user)
  return response.data

/-- Source: `authService.login`.
```
login: async (email, password) => {
  const response = await api.post('/auth/login/', { email, password });
  if (response.data.access) {
    localStorage.setItem('access_token', response.data.access);
    localStorage.setItem('refresh_token', response.data.refresh);
    const profileResponse = await api.get('/auth/profile/');
    localStorage.setItem('user', JSON.stringify(profileResponse.data));
  }
  return response.data;
}
``` -/
def login (api : Api) (email password : JSVal) : JS JSVal := do
  let response ← request api "POST" "/auth/login/"
    (.obj [("email", email), ("password", password)])
  let access ← lift (response.data.getProp "access")
  if access.truthy then
    let access1 ← lift (response.data.getProp "access")
    setItem "access_token" access1
    let refresh ← lift (response.data.getProp "refresh")
    setItem "refresh_token" refresh
    let profileResponse ← request api "GET" "/auth/profile/" .undefined
    setItem "user" (JSON.stringify profileResponse.data)
  return response.data

/-- Source: `authService.logout`.
```
logout: async () => {
  try {
    const refreshToken = localStorage.getItem('refresh_token');
    await api.post('/auth/logout/', { refresh: refreshToken });
  } catch (error) {
    console.error('Logout error:', error);
  } finally {
    localStorage.removeItem('access_token');
    localStorage.removeItem('refresh_token');
    localStorage.removeItem('user');
  }
}
``` -/
def logout (api : Api) : JS Unit :=
  tryCatchFinally
    (do
      let refreshToken ← getItem "refresh_token"
      let _ ← request api "POST" "/auth/logout/" (.obj [("refresh", refreshToken)])
      return ())
    (fun error => consoleError error)
    (do
      removeItem "access_token"
      removeItem "refresh_token"
      removeItem "user")

/-- Source: `authService.getCurrentUser`.
```
getCurrentUser: () => {
  const userStr = localStorage.getItem('user');
  return userStr ? JSON.parse(userStr) : null;
}
``` -/
def getCurrentUser : JS JSVal := do
  let userStr ← getItem "user"
  if userStr.truthy then lift (JSON.parse userStr.toJSString) else return .null

/-- Source: `authService.isAuthenticated`.
```
isAuthenticated: () => {
  return !!localStorage.getItem('access_token');
}
``` -/
def isAuthenticated : JS Bool := do
  let token ← getItem "access_token"
  return token.truthy

end authService

/-! ## `services/authService.js` on a storage of limited capacity -/

namespace Storage

/-- The characters a storage holds: the lengths of its keys and values. -/
def size (st : Storage) : Nat :=
  (st.map (fun p => p.1.length + p.2.length)).sum

end Storage

namespace BoundedStorage

open JS

/-- Platform operation `localStorage.setItem(k, v)` on a storage that holds at
most `capacity` characters: the value is converted to a string; when the
storage would outgrow the capacity the write is refused with a
`QuotaExceededError` and storage stays as it was. -/
def setItem (capacity : Nat) (k : String) (v : JSVal) : JS Unit := fun w =>
  if (w.storage.setItem k v.toJSString).size ≤ capacity then
    (.ok (), { w with storage := w.storage.setItem k v.toJSString })
  else (.error .quotaExceeded, w)

/-- Source: `authService.register`, with the writes going to a storage of
limited capacity.
```
register: async (userData) => {
  const response = await api.post('/auth/register/', userData);
  if (response.data.tokens) {
    localStorage.setItem('access_token', response.data.tokens.access);
    localStorage.setItem('refresh_token', response.data.tokens.refresh);
    localStorage.setItem('user', JSON.stringify(response.data.user));
  }
  return response.data;
}
``` -/
def register (capacity : Nat) (api : Api) (userData : JSVal) : JS JSVal := do
  let response ← request api "POST" "/auth/register/" userData
  let tokens ← lift (response.data.getProp "tokens")
  if tokens.truthy then
    let tokens1 ← lift (response.data.getProp "tokens")
    let access ← lift (tokens1.getProp "access")
    setItem capacity "access_token" access
    let tokens2 ← lift (response.data.getProp "tokens")
    let refresh ← lift (tokens2.getProp "refresh")
    setItem capacity "refresh_token" refresh
    let user ← lift (response.data.getProp "user")
    setItem capacity "user" (JSON.stringify user)
  return response.data

end BoundedStorage

/-! ## `services/transactionService.js` -/

namespace URLSearchParams

/-- One byte in `application/x-www-form-urlencoded` form. -/
def encodeByte (b : Nat) : List Char :=
  let c := Char.ofNat b
  if c.isAlphanum ∨ c = '*' ∨ c = '-' ∨ c = '.' ∨ c = '_' then [c]
  else if c = ' ' then [ '+' ]
  else [ '%', (JSON.hexChar (b / 16)).toUpper, (JSON.hexChar b).toUpper ]

/-- A string in `application/x-www-form-urlencoded` form. -/
def encode (s : String) : List Char :=
  (s.toUTF8.toList.map (fun b => b.toNat)).flatMap encodeByte

/-- Join texts with `&`. -/
def ampJoin : List (List Char) → List Char
  | [] => []
  | [t] => t
  | t :: rest => t ++ '&' :: ampJoin rest

/-- Platform operation `new URLSearchParams(init).toString()` for an object `init` given by its
own properties: `name=value` pairs joined by `&`, values converted to strings. -/
def toString (init : List (String × JSVal)) : String :=
  String.mk (ampJoin (init.map (fun p => encode p.1 ++ '=' :: encode p.2.toJSString)))

end URLSearchParams

namespace transactionService

open JS

/-- Source: `transactionService.getTransactions`; `filters` is the object
argument (default `{}`) as its list of own properties.
```
getTransactions: async (filters = {}) => {
  const params = new URLSearchParams(filters).toString();
  const response = await api.get(`/transactions/transactions/?${params}`);
  return response.data;
}
``` -/
def getTransactions (api : Api) (filters : List (String × JSVal)) : JS JSVal := do
  let params := URLSearchParams.toString filters
  let response ← request api "GET" ("/transactions/transactions/?" ++ params) .undefined
  return response.data

/-- Source: `transactionService.createTransaction`.
```
createTransaction: async (transactionData) => {
  const response = await api.post('/transactions/transactions/', transactionData);
  return response.data;
}
``` -/
def createTransaction (api : Api) (transactionData : JSVal) : JS JSVal := do
  let response ← request api "POST" "/transactions/transactions/" transactionData
  return response.data

/-- Source: `transactionService.getSummary`.
```
getSummary: async (startDate, endDate) => {
  const params = new URLSearchParams({ start_date: startDate, end_date: endDate }).toString();
  const response = await api.get(`/transactions/transactions/summary/?${params}`);
  return response.data;
}
``` -/
def getSummary (api : Api) (startDate endDate : JSVal) : JS JSVal := do
  let params := URLSearchParams.toString [("start_date", startDate), ("end_date", endDate)]
  let response ← request api "GET" ("/transactions/transactions/summary/?" ++ params) .undefined
  return response.data

/-- Source: `transactionService.getCategories`.
```
getCategories: async () => {
  const response = await api.get('/transactions/categories/');
  // Check if response has results array (paginated) or is direct array
  return response.data.results || response.data;
}
``` -/
def getCategories (api : Api) : JS JSVal := do
  let response ← request api "GET" "/transactions/categories/" .undefined
  let results ← lift (response.data.getProp "results")
  return results.or response.data

end transactionService

/-! ## `components/TransactionForm.js` -/

namespace JSVal

/-- The operator `a === b` where the operands are values of different origin
(a server payload and component state): primitives compare by type and value,
`NaN` differs from itself, and two objects or arrays are never the same
reference. -/
def strictEq : JSVal → JSVal → Bool
  | undefined, undefined => true
  | null, null => true
  | bool a, bool b => a == b
  | num a, num b => a != JSNum.nan && a == b
  | str a, str b => a == b
  | _, _ => false

end JSVal

namespace TransactionForm

/-- The component state: `categories`, `formData`, `loading` and `error`. -/
structure State where
  categories : List JSVal
  formData : JSVal
  loading : Bool
  error : JSVal
  deriving DecidableEq, Repr

/-- The default form fields; `today` is `formatDateForInput(new Date())`, a
helper of `utils/formatters` (not among the sources).
```
{ type: 'expense', amount: '', category: '',
  date: formatDateForInput(new Date()), description: '' }
``` -/
def defaultFormData (today : String) : JSVal :=
  .obj [("type", .str "expense"), ("amount", .str ""), ("category", .str ""),
    ("date", .str today), ("description", .str "")]

/-- The state of the first render. -/
def initialState (today : String) : State :=
  { categories := [], formData := defaultFormData today, loading := false, error := .str "" }

/-- Object spread with overrides, `{ ...o, k: v }`. -/
def spreadSet (o : JSVal) (k : String) (v : JSVal) : JSVal :=
  match o with
  | .obj fields => .obj (JSON.setField k v fields)
  | _ => .obj [(k, v)]

/-- Source: `fetchCategories`; the result is the value passed to
`setCategories`.
```
const fetchCategories = async () => {
  try {
    const data = await transactionService.getCategories();
    const categoryList = data.results || data;
    setCategories(Array.isArray(categoryList) ? categoryList : []);
  } catch (error) {
    console.error('Error fetching categories:', error);
    setCategories([]);
  }
};
``` -/
def fetchCategories (api : Api) : JS (List JSVal) :=
  JS.tryCatch
    (do
      let data ← transactionService.getCategories api
      let results ← JS.lift (data.getProp "results")
      let categoryList := results.or data
      match categoryList with
      | .arr xs => return xs
      | _ => return [])
    (fun error => do
      JS.consoleError error
      return [])

/-- Source: `handleChange`, with `name = e.target.name`, `value = e.target.value`.
```
const handleChange = (e) => {
  setFormData({ ...formData, [e.target.name]: e.target.value });
};
``` -/
def handleChange (name value : String) (s : State) : State :=
  { s with formData := spreadSet s.formData name (.str value) }

/-- Source: the `onClick` handlers of the two type buttons, with `type` the
literal `'expense'` or `'income'`.
```
onClick={() => setFormData({ ...formData, type: 'expense', category: '' })}
``` -/
def selectType (type : String) (s : State) : State :=
  { s with formData := spreadSet (spreadSet s.formData "type" (.str type)) "category" (.str "") }

/-- The expression `error.response?.data?.detail || 'Failed to create transaction'`
of the `catch` block; an engine error has no `response` property. -/
def errorMessage (error : Thrown) : Except Thrown JSVal :=
  match error with
  | .rejected v =>
    match v.getProp "response" with
    | .ok response =>
      .ok (((response.getPropOpt "data").getPropOpt "detail").or
        (.str "Failed to create transaction"))
    | .error t => .error t
  | _ => .ok (.str "Failed to create transaction")

/-- Source: `handleSubmit`; `onSuccess` is the optional callback prop.  The
result is the completion of the handler, the component state after all its
state updates, and the world.
```
const handleSubmit = async (e) => {
  e.preventDefault();
  setError('');
  setLoading(true);
  try {
    await transactionService.createTransaction(formData);
    setFormData({ type: 'expense', amount: '', category: '',
      date: formatDateForInput(new Date()), description: '' });
    if (onSuccess) onSuccess();
  } catch (error) {
    setError(error.response?.data?.detail || 'Failed to create transaction');
  } finally {
    setLoading(false);
  }
};
``` -/
def handleSubmit (api : Api) (today : String) (onSuccess : Option (JS Unit)) (s : State)
    (w : World) : Except Thrown Unit × State × World :=
  let s1 : State := { s with error := .str "" }
  let s2 : State := { s1 with loading := true }
  -- the `try` block: its completion, the state and the world
  let body : Except Thrown Unit × State × World :=
    match transactionService.createTransaction api s.formData w with
    | (.error e, w1) => (.error e, s2, w1)
    | (.ok _, w1) =>
      let s3 : State := { s2 with formData := defaultFormData today }
      match onSuccess with
      | none => (.ok (), s3, w1)
      | some callback =>
        match callback w1 with
        | (.ok _, w2) => (.ok (), s3, w2)
        | (.error e, w2) => (.error e, s3, w2)
  -- the `catch` block
  let caught : Except Thrown Unit × State × World :=
    match body with
    | (.ok _, s3, w3) => (.ok (), s3, w3)
    | (.error e, s3, w3) =>
      match errorMessage e with
      | .ok msg => (.ok (), { s3 with error := msg }, w3)
      | .error t => (.error t, s3, w3)
  -- the `finally` block
  (caught.1, { caught.2.1 with loading := false }, caught.2.2)

/-- A throwing variant of `Array.prototype.filter`: the first throw of the
callback ends the iteration. -/
def filterThrow (p : JSVal → Except Thrown Bool) : List JSVal → Except Thrown (List JSVal)
  | [] => .ok []
  | x :: rest =>
    match p x with
    | .error t => .error t
    | .ok b =>
      match filterThrow p rest with
      | .error t => .error t
      | .ok kept => .ok (if b then x :: kept else kept)

/-- Source: `filteredCategories`.
```
const filteredCategories = categories.filter(cat => cat.type === formData.type);
``` -/
def filteredCategories (categories : List JSVal) (formData : JSVal) :
    Except Thrown (List JSVal) :=
  filterThrow
    (fun cat =>
      match cat.getProp "type", formData.getProp "type" with
      | .ok a, .ok b => .ok (a.strictEq b)
      | .error t, _ => .error t
      | _, .error t => .error t)
    categories

end TransactionForm

/-! ## Number conversion -/

namespace JSNum

/-- White space and line terminators, as stripped by `StringToNumber`. -/
def isStrWs (c : Char) : Bool :=
  let n := c.toNat
  (9 ≤ n && n ≤ 13) || n = 32 || n = 160 || n = 5760 || (8192 ≤ n && n ≤ 8202)
    || n = 8232 || n = 8233 || n = 8239 || n = 8287 || n = 12288 || n = 65279

/-- Drop leading white space. -/
def dropStrWs : List Char → List Char
  | [] => []
  | c :: cs => if isStrWs c then dropStrWs cs else c :: cs

/-- Value of a digit in the given radix. -/
def radixDigit (radix : Nat) (c : Char) : Option Nat :=
  match JSON.hexVal c with
  | some d => if d < radix then some d else none
  | none => none

/-- Value of a non-empty digit sequence in the given radix. -/
def radixVal (radix : Nat) : List Char → Nat → Option Nat
  | [], acc => some acc
  | c :: cs, acc =>
    match radixDigit radix c with
    | some d => radixVal radix cs (acc * radix + d)
    | none => none

/-- An integer value as a number: overflow gives `Infinity`. -/
def ofNatValue (n : Nat) : JSNum :=
  if (2 : ℚ) ^ 1024 - (2 : ℚ) ^ 970 ≤ (n : ℚ) then posInf else fin n

/-- The exponent part and end of an unsigned decimal literal. -/
def strExponent (neg : Bool) (int frac rest : List Char) : JSNum :=
  match rest with
  | [] => JSON.mkNumber neg int frac false []
  | e :: r1 =>
    if e = 'e' ∨ e = 'E' then
      let signed : Bool × List Char :=
        match r1 with
        | '-' :: r2 => (true, r2)
        | '+' :: r2 => (false, r2)
        | _ => (false, r1)
      match JSON.takeDigits signed.2 with
      | ([], _) => nan
      | (ex, []) => JSON.mkNumber neg int frac signed.1 ex
      | (_, _ :: _) => nan
    else nan

/-- An unsigned `StrDecimalLiteral` (after the optional sign). -/
def strUnsigned (neg : Bool) (cs : List Char) : JSNum :=
  if cs = "Infinity".data then (if neg then negInf else posInf)
  else
    match JSON.takeDigits cs with
    | ([], '.' :: r1) =>
      match JSON.takeDigits r1 with
      | ([], _) => nan
      | (frac, r2) => strExponent neg [] frac r2
    | ([], _) => nan
    | (int, '.' :: r1) => strExponent neg int (JSON.takeDigits r1).1 (JSON.takeDigits r1).2
    | (int, r1) => strExponent neg int [] r1

/-- Platform operation `StringToNumber`: the number a string converts to, `NaN` when it is not a
numeric literal surrounded by optional white space. -/
def stringToNumber (s : String) : JSNum :=
  let body := (dropStrWs (dropStrWs s.data).reverse).reverse
  match body with
  | [] => fin 0
  | '0' :: x :: d :: ds =>
    let radix : Option Nat :=
      if x = 'x' ∨ x = 'X' then some 16
      else if x = 'o' ∨ x = 'O' then some 8
      else if x = 'b' ∨ x = 'B' then some 2
      else none
    match radix with
    | some r =>
      match radixVal r (d :: ds) 0 with
      | some n => ofNatValue n
      | none => nan
    | none => strUnsigned false body
  | '-' :: rest => strUnsigned true rest
  | '+' :: rest => strUnsigned false rest
  | _ => strUnsigned false body

/-- The comparison `a > 0`. -/
def isPositive : JSNum → Bool
  | fin q => 0 < q
  | posInf => true
  | _ => false

end JSNum

namespace JSVal

/-- Platform operation `ToNumber`, as applied to the operands of `/`, `*` and `>`. -/
def toNumber : JSVal → JSNum
  | undefined => .nan
  | null => .fin 0
  | bool b => if b then .fin 1 else .fin 0
  | num n => n
  | str s => JSNum.stringToNumber s
  | arr xs => JSNum.stringToNumber (joinElems xs)
  | obj _ => .nan

end JSVal

/-! ## `pages/Dashboard.js` -/

namespace Dashboard

/-- The component state: `summary`, `recentTransactions`, `loading` and
`showTransactionForm`. -/
structure State where
  summary : JSVal
  recentTransactions : List JSVal
  loading : Bool
  showTransactionForm : Bool
  deriving DecidableEq, Repr

/-- The state of the first render. -/
def initialState : State :=
  { summary := .null, recentTransactions := [], loading := true, showTransactionForm := false }

/-- The inner `try`/`catch` of `fetchData`; the result is the value passed to
`setRecentTransactions`.
```
try {
  const recentData = await transactionService.getTransactions();
  const transactions = recentData.results || recentData;
  setRecentTransactions(Array.isArray(transactions) ? transactions.slice(0, 5) : []);
} catch (error) {
  console.error('Error fetching recent transactions:', error);
  setRecentTransactions([]);
}
``` -/
def fetchRecent (api : Api) : JS (List JSVal) :=
  JS.tryCatch
    (do
      let recentData ← transactionService.getTransactions api []
      let results ← JS.lift (recentData.getProp "results")
      let transactions := results.or recentData
      match transactions with
      | .arr xs => return xs.take 5
      | _ => return [])
    (fun error => do
      JS.consoleError error
      return [])

/-- Source: `fetchData`; `startDate` and `endDate` are the fields of
`getCurrentMonthRange()`, a helper of `utils/formatters` (not among the
sources).
```
const fetchData = async () => {
  try {
    const { startDate, endDate } = getCurrentMonthRange();
    const summaryData = await transactionService.getSummary(startDate, endDate);
    setSummary(summaryData);
    // Fetch recent transactions
    try { ... } catch (error) { ... }
  } catch (error) {
    console.error('Error fetching data:', error);
  } finally {
    setLoading(false);
  }
};
``` -/
def fetchData (api : Api) (startDate endDate : JSVal) (s : State) (w : World) :
    State × World :=
  match transactionService.getSummary api startDate endDate w with
  | (.error e, w1) =>
    ({ s with loading := false }, { w1 with console := w1.console ++ [e] })
  | (.ok summaryData, w1) =>
    let s1 : State := { s with summary := summaryData }
    match fetchRecent api w1 with
    | (.ok recent, w2) => ({ s1 with recentTransactions := recent, loading := false }, w2)
    | (.error e, w2) =>
      ({ s1 with loading := false }, { w2 with console := w2.console ++ [e] })

/-- Source: the percentage shown for one entry of the category breakdown.
```
const percentage = ((cat.total / summary.total_expenses) * 100).toFixed(1);
``` -/
def percentage (cat summary : JSVal) : Except Thrown String :=
  match cat.getProp "total", summary.getProp "total_expenses" with
  | .ok total, .ok totalExpenses =>
    .ok ((total.toNumber.div totalExpenses.toNumber).mul (.fin 100)).toFixed1
  | .error t, _ => .error t
  | _, .error t => .error t

/-- A throwing variant of `Array.prototype.map`. -/
def mapThrow (f : JSVal → Except Thrown String) : List JSVal → Except Thrown (List String)
  | [] => .ok []
  | x :: rest =>
    match f x with
    | .error t => .error t
    | .ok y =>
      match mapThrow f rest with
      | .error t => .error t
      | .ok ys => .ok (y :: ys)

/-- Source: the category-breakdown section: the percentages shown, `none`
when the section is replaced by the empty-state card.
```
{summary?.category_breakdown && summary.category_breakdown.length > 0 ? (
  ... summary.category_breakdown.map((cat, index) => {
        const percentage = ...
``` -/
def breakdownPercentages (summary : JSVal) : Except Thrown (Option (List String)) :=
  let breakdown := summary.getPropOpt "category_breakdown"
  if breakdown.truthy then
    match breakdown.getProp "length" with
    | .error t => .error t
    | .ok len =>
      if len.toNumber.isPositive then
        match breakdown with
        | .arr cats =>
          match mapThrow (fun cat => percentage cat summary) cats with
          | .ok ps => .ok (some ps)
          | .error t => .error t
        | _ => .error .typeError
      else .ok none
  else .ok none

end Dashboard

/-! ## The transaction form as a state machine -/

namespace TransactionForm

/-- Text a React child renders as: strings and numbers print, `null`,
`undefined` and booleans print nothing. -/
def childText : JSVal → String
  | .str s => s
  | .num n => n.toJSString
  | _ => ""

/-- The value an option of the category select carries in the DOM: the string
form of `cat.id`; without an id the option has no `value` attribute and carries
its text (whose whitespace normalisation is not modelled).
```
<option key={cat.id} value={cat.id}>
  {cat.icon} {cat.name}
</option>
``` -/
def optionValue (cat : JSVal) : String :=
  if (cat.getPropOpt "id").isNullish then
    childText (cat.getPropOpt "icon") ++ " " ++ childText (cat.getPropOpt "name")
  else (cat.getPropOpt "id").toJSString

/-- The option values of the category select, in order: the placeholder option
`""`, then one option per filtered category; no option when rendering throws.
```
<option value="">Select a category</option>
{filteredCategories.map((cat) => ( <option ... value={cat.id}> ... ))}
``` -/
def categoryOptions (s : State) : List String :=
  match filteredCategories s.categories s.formData with
  | .ok cats => "" :: cats.map optionValue
  | .error _ => []

/-- The inputs wired to `handleChange` besides the category select. -/
inductive Field where
  | amount
  | date
  | description
  deriving DecidableEq, Repr

/-- The `name` attribute of an input. -/
def Field.inputName : Field → String
  | .amount => "amount"
  | .date => "date"
  | .description => "description"

/-- A user action on the form: a click on the income or the expense button,
the choice of the option at an index of the category select, an edit of an
input, or a submit whose request has the given outcome. -/
inductive Action where
  | selectType (income : Bool)
  | chooseOption (index : Nat)
  | edit (field : Field) (value : String)
  | submit (outcome : Except JSVal Response)

/-- The state after one action; `today` is the date a reset puts in the form. -/
def step (today : String) (a : Action) (s : State) : State :=
  match a with
  | .selectType income => selectType (if income then "income" else "expense") s
  | .chooseOption index =>
    match (categoryOptions s)[index]? with
    | some value => handleChange "category" value s
    | none => s
  | .edit field value => handleChange field.inputName value s
  | .submit outcome => (handleSubmit (fun _ _ => outcome) today none s ⟨[], [], []⟩).2.1

/-- The state after a sequence of actions. -/
def run (today : String) : List Action → State → State
  | [], s => s
  | a :: rest, s => run today rest (step today a s)

/-- The life of the form: actions on the first render (no category loaded
yet), the one `setCategories` of `fetchCategories`, then further actions. -/
def lifecycle (today : String) (loaded : List JSVal) (before after : List Action) : State :=
  run today after { run today before (initialState today) with categories := loaded }

/-- Type/category consistency of a form state: the form fields are an object
whose `type` is a string and whose `category` is either empty or the string
form of the id of a loaded category of that type. -/
def Consistent (s : State) : Prop :=
  ∃ fields t, s.formData = .obj fields ∧ JSVal.lookupField "type" fields = .str t
    ∧ (JSVal.lookupField "category" fields = .str ""
      ∨ ∃ c ∈ s.categories, c.getPropOpt "type" = .str t
          ∧ JSVal.lookupField "category" fields = .str (c.getPropOpt "id").toJSString)

end TransactionForm

/-! ## List normalisation, in the words of the specification -/

/-- Specification of list normalisation: "the payload's results array or the
bare array, and the empty list for any other payload". -/
def specListOfPayload : JSVal → List JSVal
  | .arr items => items
  | .obj fields =>
    match JSVal.lookupField "results" fields with
    | .arr items => items
    | _ => []
  | _ => []

/-- Specification of the list a component shows for the outcome of a service
call: the normalised payload, the empty list when the call throws. -/
def specListOfOutcome : Except Thrown JSVal → List JSVal
  | .ok payload => specListOfPayload payload
  | .error _ => []

/-! ## Requests and sample data used in the statements -/

/-- A server that rejects every request with the given value. -/
def rejectingApi (reason : JSVal) : Api := fun _ _ => .error reason

/-- The rejection of a `401` response with `{detail: 'Invalid credentials'}`. -/
def invalidCredentials : JSVal :=
  .obj [("response", .obj [("status", .num (.fin 401)),
    ("data", .obj [("detail", .str "Invalid credentials")])])]

/-- A server that accepts the login and rejects the profile lookup. -/
def profileFailingApi : Api := fun _ req =>
  if req.url = "/auth/login/" then
    .ok { data := .obj [("access", .str "acc-2"), ("refresh", .str "ref-2")] }
  else .error (.obj [("message", .str "Network Error")])

/-- A bare list of six transactions. -/
def sixTransactions : JSVal :=
  .arr [.obj [("id", .num (.fin 1))], .obj [("id", .num (.fin 2))],
    .obj [("id", .num (.fin 3))], .obj [("id", .num (.fin 4))],
    .obj [("id", .num (.fin 5))], .obj [("id", .num (.fin 6))]]

/-- Two categories, one of each type. -/
def sampleCategories : List JSVal :=
  [.obj [("id", .num (.fin 1)), ("type", .str "income")],
    .obj [("id", .num (.fin 2)), ("type", .str "expense")]]

/-- The login request `authService.login` issues. -/
def loginRequest (email password : JSVal) : Request :=
  { method := "POST", url := "/auth/login/",
    body := .obj [("email", email), ("password", password)] }

/-- The profile request `authService.login` issues. -/
def profileRequest : Request :=
  { method := "GET", url := "/auth/profile/", body := .undefined }

/-- A server that accepts every login and serves a profile. -/
def acceptingApi : Api := fun _ req =>
  if req.url = "/auth/login/" then
    .ok { data := .obj [("access", .str "acc-1"), ("refresh", .str "ref-1")] }
  else if req.url = "/auth/profile/" then
    .ok { data := .obj [("id", .num (.fin 1)), ("username", .str "ann"),
      ("email", .str "ann@x.com")] }
  else .error .null

/-- The registration request `authService.register` issues. -/
def registerRequest (userData : JSVal) : Request :=
  { method := "POST", url := "/auth/register/", body := userData }

/-- The storage `register` leaves when the response embeds `tokens`. -/
def registeredStorage (st : Storage) (data tokens : JSVal) : Storage :=
  ((st.setItem "access_token" (tokens.getPropOpt "access").toJSString).setItem
    "refresh_token" (tokens.getPropOpt "refresh").toJSString).setItem
    "user" (JSON.stringify (data.getPropOpt "user")).toJSString

/-- A registration response that embeds a token pair and a user. -/
def registeringApi : Api := fun _ _ =>
  .ok { data := .obj [("tokens", .obj [("access", .str "acc-1"), ("refresh", .str "ref-1")]),
    ("user", .obj [("id", .num (.fin 1)), ("username", .str "ann"),
      ("email", .str "ann@x.com")])] }

/-- A registration response that embeds tokens but no `user`. -/
def tokensOnlyApi : Api := fun _ _ =>
  .ok { data := .obj [("tokens", .obj [("access", .str "acc-1"), ("refresh", .str "ref-1")])] }

/-- The request `transactionService.getTransactions` issues. -/
def transactionsRequest (filters : List (String × JSVal)) : Request :=
  { method := "GET",
    url := "/transactions/transactions/?" ++ URLSearchParams.toString filters,
    body := .undefined }

/-- The request `transactionService.getCategories` issues. -/
def categoriesRequest : Request :=
  { method := "GET", url := "/transactions/categories/", body := .undefined }

/-- A server whose every response is the given payload. -/
def constantApi (payload : JSVal) : Api := fun _ _ => .ok { data := payload }

/-- A transaction record used in examples. -/
def sampleTransaction : JSVal :=
  .obj [("id", .num (.fin 7)), ("type", .str "expense"), ("amount", .str "12.50")]

/-- The request `transactionService.createTransaction` issues. -/
def createRequest (transactionData : JSVal) : Request :=
  { method := "POST", url := "/transactions/transactions/", body := transactionData }

/-- A callback that logs its invocation on the console. -/
def markingCallback : JS Unit := JS.consoleError (.rejected (.str "onSuccess"))

/-- The form fields of the end-to-end example. -/
def sampleFormData : JSVal :=
  .obj [("type", .str "expense"), ("amount", .str "12.50"), ("category", .str "2"),
    ("date", .str "2025-01-15"), ("description", .str "")]

/-! ## Storage lemmas -/

namespace Storage

theorem getItem_removeItem (k k1 : String) (st : Storage) :
    getItem k (removeItem k1 st) = if k = k1 then none else getItem k st := by
  induction st with
  | nil => simp [removeItem, getItem]
  | cons p rest ih =>
    obtain ⟨a, b⟩ := p
    simp only [removeItem] at ih
    by_cases h1 : a = k1
    · subst h1
      by_cases h : k = a
      · subst h
        simpa [removeItem, getItem] using ih
      · have h2 : ¬ a = k := fun e => h e.symm
        simpa [removeItem, getItem, h, h2] using ih
    · by_cases h : k = k1
      · subst h
        simpa [removeItem, getItem, h1] using ih
      · by_cases h3 : a = k
        · subst h3
          simp [removeItem, getItem, h]
        · simpa [removeItem, getItem, h1, h, h3] using ih

theorem getItem_setItem_self (k v : String) (st : Storage) :
    getItem k (setItem k v st) = some v := by
  induction st with
  | nil => simp [setItem, getItem]
  | cons p rest ih =>
    obtain ⟨a, b⟩ := p
    by_cases h : a = k
    · simp [setItem, getItem, h]
    · simp [setItem, getItem, h, ih]

theorem getItem_setItem_ne (k k1 v : String) (st : Storage) (h : k ≠ k1) :
    getItem k (setItem k1 v st) = getItem k st := by
  induction st with
  | nil =>
    have h2 : ¬ k1 = k := fun e => h e.symm
    simp [setItem, getItem, h2]
  | cons p rest ih =>
    obtain ⟨a, b⟩ := p
    by_cases h1 : a = k1
    · subst h1
      have h2 : ¬ a = k := fun e => h e.symm
      simp [setItem, getItem, h2]
    · by_cases h3 : a = k
      · subst h3
        simp [setItem, getItem, h]
      · simp [setItem, getItem, h1, h3, ih]

end Storage

/-! ## Session manager -/

/-- C1: for every initial world and every outcome of the `POST /auth/logout/`
call, `logout` completes without a thrown value, and afterwards none of the keys
`access_token`, `refresh_token` and `user` is in storage. -/
theorem logout_clears_storage (api : Api) (w : World) :
    (authService.logout api w).1 = .ok ()
      ∧ (authService.logout api w).2.storage.getItem "access_token" = none
      ∧ (authService.logout api w).2.storage.getItem "refresh_token" = none
      ∧ (authService.logout api w).2.storage.getItem "user" = none := by
  simp only [authService.logout, JS.tryCatchFinally, bind, JS.seq, JS.getItem, JS.request,
    JS.removeItem, JS.consoleError, pure, JS.ret]
  cases api w.storage
      { method := "POST", url := "/auth/logout/",
        body := JSVal.obj [("refresh",
          match Storage.getItem "refresh_token" w.storage with
          | some s => JSVal.str s
          | none => JSVal.null)] } <;>
    simp [Storage.getItem_removeItem]

/-- C2: when the server accepts the credentials (the login response carries a
non-empty string access token, and the profile lookup made with the new tokens
in storage succeeds), `login` returns the response data, the three keys
`access_token`, `refresh_token` and `user` are set, and `isAuthenticated` is
then true. -/
theorem login_success_sets_session (api : Api) (email password : JSVal) (w : World)
    (data profile : JSVal) (a : String)
    (hlogin : api w.storage (loginRequest email password) = .ok { data := data })
    (haccess : data.getProp "access" = .ok (.str a)) (ha : a ≠ "")
    (hprofile : api ((w.storage.setItem "access_token" a).setItem "refresh_token"
        (data.getPropOpt "refresh").toJSString) profileRequest = .ok { data := profile }) :
    (authService.login api email password w).1 = .ok data
      ∧ (authService.login api email password w).2.storage.getItem "access_token" = some a
      ∧ (authService.login api email password w).2.storage.getItem "refresh_token"
          = some (data.getPropOpt "refresh").toJSString
      ∧ (authService.login api email password w).2.storage.getItem "user"
          = some (JSON.stringify profile).toJSString
      ∧ (authService.isAuthenticated (authService.login api email password w).2).1
          = .ok true := by
  have hrefresh : data.getProp "refresh" = .ok (data.getPropOpt "refresh") := by
    cases data <;> simp [JSVal.getProp, JSVal.getPropOpt] at haccess ⊢
  simp only [loginRequest, profileRequest] at hlogin hprofile
  simp [authService.login, authService.isAuthenticated, bind, JS.seq, JS.request,
    JS.lift, JS.setItem, JS.getItem, pure, JS.ret, hlogin, haccess, hrefresh,
    JSVal.truthy, JSVal.toJSString, ha, hprofile, Storage.getItem_setItem_self,
    Storage.getItem_setItem_ne]

/-- Witness of C2: a login against `acceptingApi` from an empty storage. -/
theorem login_success_sets_session_witness :
    (authService.login acceptingApi (.str "ann@x.com") (.str "pw") ⟨[], [], []⟩).1
        = .ok (.obj [("access", .str "acc-1"), ("refresh", .str "ref-1")])
      ∧ (authService.login acceptingApi (.str "ann@x.com") (.str "pw")
          ⟨[], [], []⟩).2.storage.getItem "access_token" = some "acc-1"
      ∧ (authService.login acceptingApi (.str "ann@x.com") (.str "pw")
          ⟨[], [], []⟩).2.storage.getItem "refresh_token" = some "ref-1"
      ∧ (authService.login acceptingApi (.str "ann@x.com") (.str "pw")
          ⟨[], [], []⟩).2.storage.getItem "user"
          = some (JSON.stringify (.obj [("id", .num (.fin 1)), ("username", .str "ann"),
              ("email", .str "ann@x.com")])).toJSString
      ∧ (authService.isAuthenticated (authService.login acceptingApi (.str "ann@x.com")
          (.str "pw") ⟨[], [], []⟩).2).1 = .ok true :=
  login_success_sets_session acceptingApi (.str "ann@x.com") (.str "pw") ⟨[], [], []⟩
    (.obj [("access", .str "acc-1"), ("refresh", .str "ref-1")])
    (.obj [("id", .num (.fin 1)), ("username", .str "ann"), ("email", .str "ann@x.com")])
    "acc-1" (by decide) (by decide) (by decide) (by decide)

namespace JSVal

theorem getProp_of_not_nullish (v : JSVal) (k : String) (h : v.isNullish = false) :
    v.getProp k = .ok (v.getPropOpt k) := by
  cases v <;> simp [getProp, getPropOpt, isNullish] at h ⊢

theorem not_nullish_of_truthy (v : JSVal) (h : v.truthy = true) : v.isNullish = false := by
  cases v <;> simp [truthy, isNullish] at h ⊢

theorem not_nullish_of_getProp (v x : JSVal) (k : String) (h : v.getProp k = .ok x) :
    v.isNullish = false := by
  cases v <;> simp [getProp, isNullish] at h ⊢

end JSVal

/-- On a storage with room for every write, `register` persists all or nothing.
Either the response embeds a truthy `tokens` field, and then `register` returns
the response data with all three keys written from the response; or it does
not (also when the request is rejected or the payload is `null`), and then
storage is unchanged. -/
theorem register_all_or_nothing (api : Api) (userData : JSVal) (w : World) :
    (∃ data tokens, api w.storage (registerRequest userData) = .ok { data := data }
        ∧ data.getProp "tokens" = .ok tokens ∧ tokens.truthy = true
        ∧ (authService.register api userData w).1 = .ok data
        ∧ (authService.register api userData w).2.storage
            = registeredStorage w.storage data tokens
        ∧ (authService.register api userData w).2.storage.getItem "access_token"
            = some (tokens.getPropOpt "access").toJSString
        ∧ (authService.register api userData w).2.storage.getItem "refresh_token"
            = some (tokens.getPropOpt "refresh").toJSString
        ∧ (authService.register api userData w).2.storage.getItem "user"
            = some (JSON.stringify (data.getPropOpt "user")).toJSString)
      ∨ ((¬ ∃ data tokens, api w.storage (registerRequest userData) = .ok { data := data }
            ∧ data.getProp "tokens" = .ok tokens ∧ tokens.truthy = true)
          ∧ (authService.register api userData w).2.storage = w.storage) := by
  cases hapi : api w.storage (registerRequest userData) with
  | error e =>
    right
    simp only [registerRequest] at hapi
    simp [authService.register, bind, JS.seq, JS.request, hapi]
  | ok resp =>
    obtain ⟨data⟩ := resp
    cases htok : data.getProp "tokens" with
    | error t =>
      right
      simp only [registerRequest] at hapi
      simp [authService.register, bind, JS.seq, JS.request, JS.lift, hapi, htok]
    | ok tokens =>
      by_cases htruthy : tokens.truthy = true
      · left
        refine ⟨data, tokens, rfl, htok, htruthy, ?_⟩
        have h1 := JSVal.getProp_of_not_nullish tokens "access"
          (JSVal.not_nullish_of_truthy tokens htruthy)
        have h2 := JSVal.getProp_of_not_nullish tokens "refresh"
          (JSVal.not_nullish_of_truthy tokens htruthy)
        have h3 := JSVal.getProp_of_not_nullish data "user"
          (JSVal.not_nullish_of_getProp data tokens "tokens" htok)
        simp only [registerRequest] at hapi
        simp [authService.register, bind, JS.seq, JS.request, JS.lift, JS.setItem, pure,
          JS.ret, hapi, htok, htruthy, h1, h2, h3, registeredStorage,
          Storage.getItem_setItem_self, Storage.getItem_setItem_ne]
      · right
        simp only [registerRequest] at hapi
        simp [authService.register, bind, JS.seq, JS.request, JS.lift, pure, JS.ret, hapi,
          htok, htruthy]

/-- With room for each of its three writes, `register` on a storage of limited
capacity runs exactly as `authService.register`. -/
theorem BoundedStorage.register_eq_of_room (capacity : Nat) (api : Api) (userData : JSVal)
    (w : World) (data tokens : JSVal)
    (hapi : api w.storage (registerRequest userData) = .ok { data := data })
    (htokens : data.getProp "tokens" = .ok tokens) (htruthy : tokens.truthy = true)
    (h1 : (w.storage.setItem "access_token" (tokens.getPropOpt "access").toJSString).size
      ≤ capacity)
    (h2 : ((w.storage.setItem "access_token" (tokens.getPropOpt "access").toJSString).setItem
      "refresh_token" (tokens.getPropOpt "refresh").toJSString).size ≤ capacity)
    (h3 : (registeredStorage w.storage data tokens).size ≤ capacity) :
    BoundedStorage.register capacity api userData w = authService.register api userData w := by
  have g1 := JSVal.getProp_of_not_nullish tokens "access"
    (JSVal.not_nullish_of_truthy tokens htruthy)
  have g2 := JSVal.getProp_of_not_nullish tokens "refresh"
    (JSVal.not_nullish_of_truthy tokens htruthy)
  have g3 := JSVal.getProp_of_not_nullish data "user"
    (JSVal.not_nullish_of_getProp data tokens "tokens" htokens)
  simp only [registerRequest] at hapi
  simp only [registeredStorage] at h3
  simp [BoundedStorage.register, BoundedStorage.setItem, authService.register, bind, JS.seq,
    JS.request, JS.lift, JS.setItem, pure, JS.ret, hapi, htokens, htruthy, g1, g2, g3, h1, h2,
    h3]

/-- C4 fails on the code: `register` makes three separate writes with nothing
to undo them.  For a response with a token pair and a user, on an empty
storage with room for 40 characters, the two token writes succeed (35
characters), the `user` write is refused with `QuotaExceededError`, and
`register` throws leaving `access_token` and `refresh_token` written and
`user` absent; with room for 20 characters only `access_token` is written. -/
theorem register_partial_persistence :
    BoundedStorage.register 40 registeringApi .null ⟨[], [], []⟩
        = (.error .quotaExceeded,
            ⟨[("access_token", "acc-1"), ("refresh_token", "ref-1")],
              [{ method := "POST", url := "/auth/register/", body := .null }], []⟩)
      ∧ (BoundedStorage.register 40 registeringApi .null ⟨[], [], []⟩).2.storage.getItem
          "user" = none
      ∧ BoundedStorage.register 20 registeringApi .null ⟨[], [], []⟩
        = (.error .quotaExceeded,
            ⟨[("access_token", "acc-1")],
              [{ method := "POST", url := "/auth/register/", body := .null }], []⟩) := by
  decide

/-- C5, as stated, fails: with the empty string stored under `access_token`
the entry is present but `isAuthenticated` is false. -/
theorem isAuthenticated_present_counterexample :
    ¬ ((authService.isAuthenticated ⟨[("access_token", "")], [], []⟩).1 = .ok true
        ↔ Storage.getItem "access_token" [("access_token", "")] ≠ none) := by
  decide

/-- C5, amended: `isAuthenticated` never throws and leaves the world unchanged;
it is true exactly when a non-empty string is stored under `access_token`, and
false exactly when that key is absent or holds the empty string.  The
`refresh_token` and `user` entries play no part. -/
theorem isAuthenticated_iff_nonempty_token (w : World) :
    (authService.isAuthenticated w).2 = w
      ∧ ((authService.isAuthenticated w).1 = .ok true
          ↔ ∃ t, w.storage.getItem "access_token" = some t ∧ t ≠ "")
      ∧ ((authService.isAuthenticated w).1 = .ok false
          ↔ (w.storage.getItem "access_token" = none
              ∨ w.storage.getItem "access_token" = some "")) := by
  simp only [authService.isAuthenticated, bind, JS.seq, JS.getItem, pure, JS.ret]
  cases h : Storage.getItem "access_token" w.storage with
  | none => simp [JSVal.truthy]
  | some t => by_cases ht : t = "" <;> simp [JSVal.truthy, ht]

/-- C3 fails on malformed storage: with the text `undefined` under `user`,
`getCurrentUser` throws a `SyntaxError` instead of returning `null`; `register`
itself stores that text when the response embeds tokens but no `user`. -/
theorem getCurrentUser_malformed_throws :
    (authService.getCurrentUser ⟨[("user", "undefined")], [], []⟩).1 = .error .syntaxError
      ∧ (authService.register tokensOnlyApi .null ⟨[], [], []⟩).2.storage.getItem "user"
          = some "undefined"
      ∧ (authService.getCurrentUser
          (authService.register tokensOnlyApi .null ⟨[], [], []⟩).2).1
          = .error .syntaxError := by
  decide

/-! ## Transaction client -/

/-- C6, as stated, fails: for the envelope `{results: [t]}` the call returns the
envelope, not `[t]`; for `{}` it returns `{}` and for `null` it returns `null`,
not the empty sequence. -/
theorem getTransactions_normalizes_counterexample :
    (transactionService.getTransactions
        (constantApi (.obj [("results", .arr [sampleTransaction])])) [] ⟨[], [], []⟩).1
        ≠ .ok (.arr [sampleTransaction])
      ∧ (transactionService.getTransactions (constantApi (.obj [])) [] ⟨[], [], []⟩).1
        ≠ .ok (.arr [])
      ∧ (transactionService.getTransactions (constantApi .null) [] ⟨[], [], []⟩).1
        ≠ .ok (.arr []) := by
  decide

/-- C6, amended: `getTransactions` issues one `GET` request and returns the
server payload unchanged, whatever its shape (a bare array, an envelope, `{}`,
`null`); it throws exactly when the request is rejected, with the rejection
value. -/
theorem getTransactions_returns_payload (api : Api) (filters : List (String × JSVal))
    (w : World) :
    transactionService.getTransactions api filters w
      = (match api w.storage (transactionsRequest filters) with
          | .ok response => .ok response.data
          | .error e => .error (.rejected e),
        { w with requests := w.requests ++ [transactionsRequest filters] }) := by
  simp only [transactionService.getTransactions, transactionsRequest, bind, JS.seq,
    JS.request, pure, JS.ret]
  cases api w.storage
    { method := "GET",
      url := "/transactions/transactions/?" ++ URLSearchParams.toString filters,
      body := JSVal.undefined } <;> rfl

/-- C7, as stated, fails: for `{}` the call returns `{}` and for
`{results: null}` it returns that object, not the empty sequence; for `null` it
throws a `TypeError`. -/
theorem getCategories_normalizes_counterexample :
    (transactionService.getCategories (constantApi (.obj [])) ⟨[], [], []⟩).1
        ≠ .ok (.arr [])
      ∧ (transactionService.getCategories (constantApi (.obj [("results", .null)]))
          ⟨[], [], []⟩).1 ≠ .ok (.arr [])
      ∧ (transactionService.getCategories (constantApi .null) ⟨[], [], []⟩).1
        = .error .typeError := by
  decide

/-- C7, amended: when the request resolves with payload `data`, `getCategories`
returns `L` for a bare array `L` and for an envelope whose `results` is the
array `L`; for any other payload that is not `null` or `undefined` it returns
`data.results || data`, which need not be a sequence; for `null` and
`undefined` it throws a `TypeError`. -/
theorem getCategories_results_or_payload (api : Api) (w : World) (data : JSVal)
    (hapi : api w.storage categoriesRequest = .ok { data := data }) :
    (∀ L, data = .arr L → (transactionService.getCategories api w).1 = .ok (.arr L))
      ∧ (∀ fields L, data = .obj fields → JSVal.lookupField "results" fields = .arr L →
          (transactionService.getCategories api w).1 = .ok (.arr L))
      ∧ (data.isNullish = false →
          (transactionService.getCategories api w).1
            = .ok ((data.getPropOpt "results").or data))
      ∧ (data.isNullish = true →
          (transactionService.getCategories api w).1 = .error .typeError) := by
  simp only [categoriesRequest] at hapi
  refine ⟨?_, ?_, ?_, ?_⟩
  · intro L hL
    subst hL
    have hne : ¬ ("results" = "length") := by decide
    simp [transactionService.getCategories, bind, JS.seq, JS.request, JS.lift, pure, JS.ret,
      hapi, JSVal.getProp, JSVal.or, JSVal.truthy, hne]
  · intro fields L hf hL
    subst hf
    simp [transactionService.getCategories, bind, JS.seq, JS.request, JS.lift, pure, JS.ret,
      hapi, JSVal.getProp, JSVal.or, JSVal.truthy, hL]
  · intro hn
    simp [transactionService.getCategories, bind, JS.seq, JS.request, JS.lift, pure, JS.ret,
      hapi, JSVal.getProp_of_not_nullish data "results" hn]
  · intro hn
    cases data <;> simp [JSVal.isNullish] at hn <;>
      simp [transactionService.getCategories, bind, JS.seq, JS.request, JS.lift, hapi,
        JSVal.getProp]

/-- Witness of C7 (amended): the envelope `{results: [c]}` gives `[c]`. -/
theorem getCategories_results_or_payload_witness :
    (transactionService.getCategories
        (constantApi (.obj [("results", .arr [.obj [("id", .num (.fin 2)),
          ("type", .str "expense")]])])) ⟨[], [], []⟩).1
      = .ok (.arr [.obj [("id", .num (.fin 2)), ("type", .str "expense")]]) :=
  (getCategories_results_or_payload
    (constantApi (.obj [("results", .arr [.obj [("id", .num (.fin 2)),
      ("type", .str "expense")]])])) ⟨[], [], []⟩
    (.obj [("results", .arr [.obj [("id", .num (.fin 2)), ("type", .str "expense")]])])
    (by decide)).2.1 _ _ rfl (by decide)

/-! ## Transaction form -/

namespace JSVal

theorem strictEq_str_iff (x : JSVal) (t : String) : x.strictEq (.str t) = true ↔ x = .str t := by
  cases x <;> simp [strictEq]

end JSVal

namespace TransactionForm

theorem filterThrow_eq_filter (p : JSVal → Except Thrown Bool) (q : JSVal → Bool)
    (xs : List JSVal) (h : ∀ x ∈ xs, p x = .ok (q x)) :
    filterThrow p xs = .ok (xs.filter q) := by
  induction xs with
  | nil => rfl
  | cons x rest ih =>
    have hx : p x = .ok (q x) := h x (List.mem_cons_self x rest)
    have hrest : filterThrow p rest = .ok (rest.filter q) :=
      ih (fun y hy => h y (List.mem_cons_of_mem x hy))
    simp only [filterThrow, hx, hrest, List.filter_cons]

end TransactionForm

/-- C8: for every list of categories (objects) and every selected type `t`,
`filteredCategories` returns the categories whose `type` is `t`: the result
is a sublist of the input (original relative order) in which a category of
type `t` occurs as often as in the input and any other category not at all. -/
theorem filteredCategories_spec (categories : List JSVal) (formData : JSVal) (t : String)
    (hcats : ∀ c ∈ categories, c.isNullish = false)
    (htype : formData.getProp "type" = .ok (.str t)) :
    TransactionForm.filteredCategories categories formData
        = .ok (categories.filter (fun c => decide (c.getPropOpt "type" = .str t)))
      ∧ (categories.filter (fun c => decide (c.getPropOpt "type" = .str t))).Sublist
          categories
      ∧ ∀ c, (categories.filter (fun c => decide (c.getPropOpt "type" = .str t))).count c
          = if c.getPropOpt "type" = .str t then categories.count c else 0 := by
  refine ⟨?_, List.filter_sublist _, ?_⟩
  · apply TransactionForm.filterThrow_eq_filter
    intro c hc
    have hn : c.isNullish = false := hcats c hc
    simp only [JSVal.getProp_of_not_nullish c "type" hn, htype]
    congr 1
    by_cases hm : c.getPropOpt "type" = .str t
    · simp [hm, JSVal.strictEq]
    · cases h : (c.getPropOpt "type").strictEq (.str t) with
      | false => simp [hm]
      | true => exact absurd ((JSVal.strictEq_str_iff _ t).mp h) hm
  · intro c
    by_cases hm : c.getPropOpt "type" = .str t
    · rw [if_pos hm]
      exact List.count_filter (by simpa using hm)
    · rw [if_neg hm]
      apply List.count_eq_zero.mpr
      intro hmem
      have := (List.mem_filter.mp hmem).2
      simp [hm] at this

/-- Witness of C8: categories `[{id:1,type:'income'},{id:2,type:'expense'}]`
with selected type `'expense'` give exactly `[{id:2,type:'expense'}]`. -/
theorem filteredCategories_spec_witness :
    TransactionForm.filteredCategories
        [.obj [("id", .num (.fin 1)), ("type", .str "income")],
          .obj [("id", .num (.fin 2)), ("type", .str "expense")]]
        (.obj [("type", .str "expense"), ("amount", .str ""), ("category", .str ""),
          ("date", .str "2025-01-15"), ("description", .str "")])
      = .ok [.obj [("id", .num (.fin 2)), ("type", .str "expense")]] :=
  (filteredCategories_spec
    [.obj [("id", .num (.fin 1)), ("type", .str "income")],
      .obj [("id", .num (.fin 2)), ("type", .str "expense")]]
    (.obj [("type", .str "expense"), ("amount", .str ""), ("category", .str ""),
      ("date", .str "2025-01-15"), ("description", .str "")])
    "expense" (by decide) (by decide)).1.trans (by decide)

/-- C10: when the server accepts the create request, `handleSubmit` issues
exactly that one `POST /transactions/transactions/` request, whose payload is
the current `formData`, before it runs the `onSuccess` callback exactly once;
if the callback completes, the handler completes and the form fields are
`type: 'expense'`, `amount: ''`, `category: ''`, `date:` today,
`description: ''`, `error` is empty, `loading` is false and the categories
are untouched.  Whatever the outcome of the request, the handler itself
(without a callback) issues exactly that one request and touches nothing else
of the world. -/
theorem handleSubmit_success (api : Api) (today : String) (onSuccess : JS Unit)
    (s : TransactionForm.State) (w w2 : World) (response : Response)
    (hcreate : api w.storage
        { method := "POST", url := "/transactions/transactions/", body := s.formData }
      = .ok response)
    (hcallback : onSuccess
        { w with requests := w.requests ++
            [{ method := "POST", url := "/transactions/transactions/", body := s.formData }] }
      = (.ok (), w2)) :
    TransactionForm.handleSubmit api today (some onSuccess) s w
        = (.ok (),
            { categories := s.categories,
              formData := .obj [("type", .str "expense"), ("amount", .str ""),
                ("category", .str ""), ("date", .str today), ("description", .str "")],
              loading := false,
              error := .str "" },
            w2)
      ∧ ∀ anyApi : Api, (TransactionForm.handleSubmit anyApi today none s w).2.2
          = { w with requests := w.requests ++
                [{ method := "POST", url := "/transactions/transactions/",
                   body := s.formData }] } := by
  constructor
  · simp [TransactionForm.handleSubmit, transactionService.createTransaction, bind, JS.seq,
      JS.request, pure, JS.ret, hcreate, hcallback, TransactionForm.defaultFormData]
  · intro anyApi
    simp only [TransactionForm.handleSubmit, transactionService.createTransaction, bind,
      JS.seq, JS.request, pure, JS.ret]
    cases anyApi w.storage
        { method := "POST", url := "/transactions/transactions/", body := s.formData } with
    | ok r => rfl
    | error e =>
      cases hmsg : TransactionForm.errorMessage (Thrown.rejected e) <;> simp [hmsg]

/-- Witness of C10: submitting `{type:'expense', amount:'12.50', category:'2',
date:'2025-01-15', description:''}` on 2025-02-01 to a server that accepts it:
one request with those fields, the default fields afterwards, one run of the
callback. -/
theorem handleSubmit_success_witness :
    TransactionForm.handleSubmit (constantApi sampleTransaction) "2025-02-01"
        (some markingCallback)
        { categories := [],
          formData := .obj [("type", .str "expense"), ("amount", .str "12.50"),
            ("category", .str "2"), ("date", .str "2025-01-15"), ("description", .str "")],
          loading := false,
          error := .str "" }
        ⟨[], [], []⟩
      = (.ok (),
          { categories := [],
            formData := .obj [("type", .str "expense"), ("amount", .str ""),
              ("category", .str ""), ("date", .str "2025-02-01"), ("description", .str "")],
            loading := false,
            error := .str "" },
          ⟨[],
            [{ method := "POST", url := "/transactions/transactions/",
               body := .obj [("type", .str "expense"), ("amount", .str "12.50"),
                 ("category", .str "2"), ("date", .str "2025-01-15"),
                 ("description", .str "")] }],
            [.rejected (.str "onSuccess")]⟩) :=
  (handleSubmit_success (constantApi sampleTransaction) "2025-02-01" markingCallback
    { categories := [],
      formData := .obj [("type", .str "expense"), ("amount", .str "12.50"),
        ("category", .str "2"), ("date", .str "2025-01-15"), ("description", .str "")],
      loading := false,
      error := .str "" }
    ⟨[], [], []⟩
    ⟨[],
      [{ method := "POST", url := "/transactions/transactions/",
         body := .obj [("type", .str "expense"), ("amount", .str "12.50"),
           ("category", .str "2"), ("date", .str "2025-01-15"),
           ("description", .str "")] }],
      [.rejected (.str "onSuccess")]⟩
    { data := sampleTransaction } (by decide) (by decide)).1

/-! ## Dashboard -/

/-- C9 fails on the code: with `total_expenses = 0` the percentage of a category
total `q` is `NaN` for `q = 0` and an infinity otherwise; the breakdown of the
summary `{total_expenses: 0, category_breakdown: [{total: 0}, {total: 50}]}`
shows `NaN` and `Infinity`. -/
theorem percentage_zero_total_expenses (q : ℚ) (catRest summaryRest : List (String × JSVal)) :
    Dashboard.percentage (.obj (("total", .num (.fin q)) :: catRest))
        (.obj (("total_expenses", .num (.fin 0)) :: summaryRest))
        = .ok (if q = 0 then "NaN" else if 0 < q then "Infinity" else "-Infinity")
      ∧ Dashboard.breakdownPercentages
          (.obj [("total_expenses", .num (.fin 0)),
            ("category_breakdown", .arr [.obj [("total", .num (.fin 0))],
              .obj [("total", .num (.fin 50))]])])
        = .ok (some ["NaN", "Infinity"]) := by
  constructor
  · simp only [Dashboard.percentage, JSVal.getProp, JSVal.lookupField, JSVal.toNumber,
      JSNum.div, if_true]
    by_cases h0 : q = 0
    · simp [h0, JSNum.mul, JSNum.toFixed1]
    · by_cases hpos : 0 < q
      · simp [h0, hpos, JSNum.mul, JSNum.toFixed1]
      · simp [h0, hpos, JSNum.mul, JSNum.toFixed1]
  · decide

/-! ## Session manager: failures of `login` -/

/-- C11: when the `POST /auth/login/` call is rejected, `login` throws the
rejection value to its caller, issues no further request (no profile lookup)
and leaves storage, hence the three keys, exactly as before the call. -/
theorem login_rejected_sets_nothing (api : Api) (email password : JSVal) (w : World)
    (e : JSVal) (hlogin : api w.storage (loginRequest email password) = .error e) :
    authService.login api email password w
        = (.error (.rejected e),
            { w with requests := w.requests ++ [loginRequest email password] })
      ∧ (authService.login api email password w).2.storage = w.storage := by
  simp only [loginRequest] at hlogin
  simp [authService.login, bind, JS.seq, JS.request, loginRequest, hlogin]

/-- Witness of C11: `login('bad@x.com', 'wrong')` against a server answering
`401` with `{detail: 'Invalid credentials'}`, from an empty storage. -/
theorem login_rejected_sets_nothing_witness :
    authService.login (rejectingApi invalidCredentials) (.str "bad@x.com") (.str "wrong")
        ⟨[], [], []⟩
        = (.error (.rejected invalidCredentials),
            ⟨[], [loginRequest (.str "bad@x.com") (.str "wrong")], []⟩)
      ∧ (authService.login (rejectingApi invalidCredentials) (.str "bad@x.com")
          (.str "wrong") ⟨[], [], []⟩).2.storage = [] :=
  login_rejected_sets_nothing (rejectingApi invalidCredentials) (.str "bad@x.com")
    (.str "wrong") ⟨[], [], []⟩ invalidCredentials (by decide)

/-- C12, as stated, fails: when storage already holds a `user` entry, a login
whose profile lookup fails leaves that entry in place, so the `user` key is not
absent. -/
theorem login_profile_failure_counterexample :
    (authService.login profileFailingApi (.str "ann@x.com") (.str "pw")
        ⟨[("user", "\x7b\"id\":9\x7d")], [], []⟩).2.storage.getItem "user" ≠ none := by
  decide

/-- C12, amended: when the login response carries a non-empty string access
token and the profile lookup (made with the new tokens in storage) is
rejected, `login` throws the rejection value, `access_token` and
`refresh_token` hold the new tokens, and the `user` entry is as it was before
the call (absent if it was absent). -/
theorem login_profile_failure_keeps_tokens (api : Api) (email password : JSVal) (w : World)
    (data e : JSVal) (a : String)
    (hlogin : api w.storage (loginRequest email password) = .ok { data := data })
    (haccess : data.getProp "access" = .ok (.str a)) (ha : a ≠ "")
    (hprofile : api ((w.storage.setItem "access_token" a).setItem "refresh_token"
        (data.getPropOpt "refresh").toJSString) profileRequest = .error e) :
    (authService.login api email password w).1 = .error (.rejected e)
      ∧ (authService.login api email password w).2.storage.getItem "access_token" = some a
      ∧ (authService.login api email password w).2.storage.getItem "refresh_token"
          = some (data.getPropOpt "refresh").toJSString
      ∧ (authService.login api email password w).2.storage.getItem "user"
          = w.storage.getItem "user" := by
  have hrefresh : data.getProp "refresh" = .ok (data.getPropOpt "refresh") :=
    JSVal.getProp_of_not_nullish data "refresh"
      (JSVal.not_nullish_of_getProp data (.str a) "access" haccess)
  simp only [loginRequest, profileRequest] at hlogin hprofile
  simp [authService.login, bind, JS.seq, JS.request, JS.lift, JS.setItem, hlogin, haccess,
    hrefresh, JSVal.truthy, JSVal.toJSString, ha, hprofile, Storage.getItem_setItem_self,
    Storage.getItem_setItem_ne]

/-- Witness of C12 (amended): a login against `profileFailingApi` from an
empty storage leaves both tokens and no `user` entry. -/
theorem login_profile_failure_keeps_tokens_witness :
    (authService.login profileFailingApi (.str "ann@x.com") (.str "pw") ⟨[], [], []⟩).1
        = .error (.rejected (.obj [("message", .str "Network Error")]))
      ∧ (authService.login profileFailingApi (.str "ann@x.com") (.str "pw")
          ⟨[], [], []⟩).2.storage.getItem "access_token" = some "acc-2"
      ∧ (authService.login profileFailingApi (.str "ann@x.com") (.str "pw")
          ⟨[], [], []⟩).2.storage.getItem "refresh_token" = some "ref-2"
      ∧ (authService.login profileFailingApi (.str "ann@x.com") (.str "pw")
          ⟨[], [], []⟩).2.storage.getItem "user" = none :=
  login_profile_failure_keeps_tokens profileFailingApi (.str "ann@x.com") (.str "pw")
    ⟨[], [], []⟩ (.obj [("access", .str "acc-2"), ("refresh", .str "ref-2")])
    (.obj [("message", .str "Network Error")]) "acc-2"
    (by decide) (by decide) (by decide) (by decide)

/-! ## Transaction form: the failure path of `handleSubmit` -/

/-- C13: when `createTransaction` fails with an error object `v`, `handleSubmit`
completes; `error` is `v.response.data.detail` itself when that is present
(truthy) and `'Failed to create transaction'` otherwise; the form fields and
categories are unchanged, `loading` ends false, and the world shows the one
request and nothing else: no retry and no run of `onSuccess`. -/
theorem handleSubmit_failure (api : Api) (today : String) (onSuccess : Option (JS Unit))
    (s : TransactionForm.State) (w : World) (v : JSVal)
    (hcreate : api w.storage (createRequest s.formData) = .error v)
    (hobject : v.isNullish = false) :
    TransactionForm.handleSubmit api today onSuccess s w
        = (.ok (),
            { categories := s.categories,
              formData := s.formData,
              loading := false,
              error := (((v.getPropOpt "response").getPropOpt "data").getPropOpt "detail").or
                (.str "Failed to create transaction") },
            { w with requests := w.requests ++ [createRequest s.formData] })
      ∧ ((((v.getPropOpt "response").getPropOpt "data").getPropOpt "detail").truthy = true →
          (TransactionForm.handleSubmit api today onSuccess s w).2.1.error
            = ((v.getPropOpt "response").getPropOpt "data").getPropOpt "detail")
      ∧ ((((v.getPropOpt "response").getPropOpt "data").getPropOpt "detail").truthy = false →
          (TransactionForm.handleSubmit api today onSuccess s w).2.1.error
            = .str "Failed to create transaction") := by
  have hresp := JSVal.getProp_of_not_nullish v "response" hobject
  simp only [createRequest] at hcreate
  have hrun : TransactionForm.handleSubmit api today onSuccess s w
      = (.ok (),
          { categories := s.categories,
            formData := s.formData,
            loading := false,
            error := (((v.getPropOpt "response").getPropOpt "data").getPropOpt "detail").or
              (.str "Failed to create transaction") },
          { w with requests := w.requests ++ [createRequest s.formData] }) := by
    simp [TransactionForm.handleSubmit, transactionService.createTransaction, bind, JS.seq,
      JS.request, hcreate, TransactionForm.errorMessage, hresp, createRequest]
  refine ⟨hrun, ?_, ?_⟩
  · intro ht
    rw [hrun]
    simp [JSVal.or, ht]
  · intro hf
    rw [hrun]
    simp [JSVal.or, hf]

/-- Witness of C13: a server rejection carrying `{detail: 'Invalid category'}`
is shown verbatim; the form keeps its fields. -/
theorem handleSubmit_failure_witness :
    TransactionForm.handleSubmit
        (rejectingApi (.obj [("response", .obj [("data",
          .obj [("detail", .str "Invalid category")])])]))
        "2025-02-01" (some markingCallback)
        { categories := [], formData := sampleFormData, loading := false, error := .str "" }
        ⟨[], [], []⟩
      = (.ok (),
          { categories := [], formData := sampleFormData, loading := false,
            error := .str "Invalid category" },
          ⟨[], [createRequest sampleFormData], []⟩) :=
  (handleSubmit_failure
    (rejectingApi (.obj [("response", .obj [("data",
      .obj [("detail", .str "Invalid category")])])]))
    "2025-02-01" (some markingCallback)
    { categories := [], formData := sampleFormData, loading := false, error := .str "" }
    ⟨[], [], []⟩
    (.obj [("response", .obj [("data", .obj [("detail", .str "Invalid category")])])])
    (by decide) (by decide)).1.trans (by decide)

/-! ## Transaction form: type/category consistency -/

namespace JSON

theorem lookupField_setField_self (k : String) (v : JSVal) (fields : List (String × JSVal)) :
    JSVal.lookupField k (setField k v fields) = v := by
  induction fields with
  | nil => simp [setField, JSVal.lookupField]
  | cons p rest ih =>
    obtain ⟨k1, v1⟩ := p
    by_cases h : k1 = k
    · simp [setField, JSVal.lookupField, h]
    · simp [setField, JSVal.lookupField, h, ih]

theorem lookupField_setField_ne (k k1 : String) (v : JSVal) (fields : List (String × JSVal))
    (h : k ≠ k1) : JSVal.lookupField k (setField k1 v fields) = JSVal.lookupField k fields := by
  induction fields with
  | nil =>
    have h2 : ¬ k1 = k := fun e => h e.symm
    simp [setField, JSVal.lookupField, h2]
  | cons p rest ih =>
    obtain ⟨k2, v2⟩ := p
    by_cases h1 : k2 = k1
    · subst h1
      have h2 : ¬ k2 = k := fun e => h e.symm
      simp [setField, JSVal.lookupField, h2]
    · by_cases h3 : k2 = k
      · subst h3
        simp [setField, JSVal.lookupField, h1]
      · simp [setField, JSVal.lookupField, h1, h3, ih]

end JSON

namespace TransactionForm

theorem filterThrow_sound (p : JSVal → Except Thrown Bool) (xs ys : List JSVal)
    (h : filterThrow p xs = .ok ys) : ∀ y ∈ ys, y ∈ xs ∧ p y = .ok true := by
  induction xs generalizing ys with
  | nil =>
    simp only [filterThrow, Except.ok.injEq] at h
    subst h
    intro y hy
    cases hy
  | cons x rest ih =>
    simp only [filterThrow] at h
    cases hp : p x with
    | error t => simp [hp] at h
    | ok b =>
      cases hr : filterThrow p rest with
      | error t => simp [hp, hr] at h
      | ok kept =>
        simp only [hp, hr, Except.ok.injEq] at h
        intro y hy
        cases b with
        | false =>
          simp only [Bool.false_eq_true, if_false] at h
          subst h
          exact ⟨List.mem_cons_of_mem x (ih kept hr y hy).1, (ih kept hr y hy).2⟩
        | true =>
          simp only [if_true] at h
          subst h
          rcases List.mem_cons.mp hy with hxy | hmem
          · subst hxy
            exact ⟨List.mem_cons_self _ _, hp⟩
          · exact ⟨List.mem_cons_of_mem x (ih kept hr y hmem).1, (ih kept hr y hmem).2⟩

theorem consistent_setOther (s : State) (name : String) (v : JSVal)
    (h1 : "type" ≠ name) (h2 : "category" ≠ name) (h : Consistent s) :
    Consistent { s with formData := spreadSet s.formData name v } := by
  obtain ⟨fields, t, hf, ht, hc⟩ := h
  refine ⟨JSON.setField name v fields, t, ?_, ?_, ?_⟩
  · simp [hf, spreadSet]
  · rw [JSON.lookupField_setField_ne "type" name v fields h1]
    exact ht
  · rw [JSON.lookupField_setField_ne "category" name v fields h2]
    exact hc

theorem consistent_selectType (s : State) (type : String) (h : Consistent s) :
    Consistent (selectType type s) := by
  obtain ⟨fields, t, hf, _, _⟩ := h
  refine ⟨JSON.setField "category" (.str "") (JSON.setField "type" (.str type) fields),
    type, ?_, ?_, ?_⟩
  · simp [selectType, hf, spreadSet]
  · rw [JSON.lookupField_setField_ne "type" "category" _ _ (by decide),
      JSON.lookupField_setField_self]
  · left
    exact JSON.lookupField_setField_self _ _ _

theorem consistent_chooseOption (today : String) (s : State) (index : Nat)
    (hid : ∀ c ∈ s.categories, (c.getPropOpt "id").isNullish = false) (h : Consistent s) :
    Consistent (step today (.chooseOption index) s) := by
  simp only [step]
  cases hopt : (categoryOptions s)[index]? with
  | none => exact h
  | some value =>
    have hmem : value ∈ categoryOptions s := List.getElem?_mem hopt
    obtain ⟨fields, t, hf, ht, hc⟩ := h
    refine ⟨JSON.setField "category" (.str value) fields, t, ?_, ?_, ?_⟩
    · simp [handleChange, hf, spreadSet]
    · rw [JSON.lookupField_setField_ne "type" "category" _ _ (by decide)]
      exact ht
    · rw [JSON.lookupField_setField_self]
      simp only [categoryOptions] at hmem
      cases hfilter : filteredCategories s.categories s.formData with
      | error e => simp [hfilter] at hmem
      | ok cats =>
        simp only [hfilter, List.mem_cons, List.mem_map] at hmem
        rcases hmem with hempty | ⟨c, hcmem, hval⟩
        · left
          rw [hempty]
        · right
          have hsound := filterThrow_sound _ _ _ hfilter c hcmem
          refine ⟨c, hsound.1, ?_, ?_⟩
          · have hp := hsound.2
            have hfd : s.formData.getProp "type" = .ok (.str t) := by
              simp [hf, JSVal.getProp, ht]
            rw [hfd] at hp
            cases hct : c.getProp "type" with
            | error e => simp [hct] at hp
            | ok a =>
              simp only [hct, Except.ok.injEq] at hp
              have ha : a = .str t := (JSVal.strictEq_str_iff a t).mp hp
              simp [JSVal.getPropOpt, hct, ha]
          · have hnn := hid c hsound.1
            simp only [optionValue, hnn, Bool.false_eq_true, if_false] at hval
            rw [← hval]

theorem handleSubmit_formData (api : Api) (today : String) (s : State) (w : World) :
    (handleSubmit api today none s w).2.1.categories = s.categories
      ∧ ((handleSubmit api today none s w).2.1.formData = s.formData
        ∨ (handleSubmit api today none s w).2.1.formData = defaultFormData today) := by
  simp only [handleSubmit, transactionService.createTransaction, bind, JS.seq, JS.request,
    pure, JS.ret]
  cases api w.storage
      { method := "POST", url := "/transactions/transactions/", body := s.formData } with
  | ok r => simp
  | error e => cases hmsg : errorMessage (Thrown.rejected e) <;> simp [hmsg]

theorem consistent_default (today : String) (cats : List JSVal) :
    Consistent
      { categories := cats
        formData := defaultFormData today
        loading := false
        error := .str "" } := by
  refine ⟨_, "expense", rfl, ?_, ?_⟩
  · simp [JSVal.lookupField]
  · left
    simp [JSVal.lookupField]

theorem consistent_of_formData (s1 s2 : State) (hc : s2.categories = s1.categories)
    (hf : s2.formData = s1.formData) (h : Consistent s1) : Consistent s2 := by
  obtain ⟨fields, t, hf1, ht, hcat⟩ := h
  refine ⟨fields, t, hf.trans hf1, ht, ?_⟩
  rw [hc]
  exact hcat

theorem step_categories (today : String) (a : Action) (s : State) :
    (step today a s).categories = s.categories := by
  cases a with
  | selectType income => rfl
  | chooseOption index =>
    simp only [step]
    cases (categoryOptions s)[index]? <;> rfl
  | edit field value => rfl
  | submit outcome => exact (handleSubmit_formData _ today s _).1

theorem step_consistent (today : String) (a : Action) (s : State)
    (hid : ∀ c ∈ s.categories, (c.getPropOpt "id").isNullish = false) (h : Consistent s) :
    Consistent (step today a s) := by
  cases a with
  | selectType income => exact consistent_selectType s _ h
  | chooseOption index => exact consistent_chooseOption today s index hid h
  | edit field value =>
    cases field
    · exact consistent_setOther s "amount" (.str value) (by decide) (by decide) h
    · exact consistent_setOther s "date" (.str value) (by decide) (by decide) h
    · exact consistent_setOther s "description" (.str value) (by decide) (by decide) h
  | submit outcome =>
    have hs := handleSubmit_formData (fun _ _ => outcome) today s ⟨[], [], []⟩
    rcases hs.2 with hsame | hreset
    · exact consistent_of_formData s _ hs.1 hsame h
    · exact consistent_of_formData
        (State.mk s.categories (defaultFormData today) false (.str "")) _ hs.1 hreset
        (consistent_default today s.categories)

theorem run_consistent (today : String) (actions : List Action) (s : State)
    (hid : ∀ c ∈ s.categories, (c.getPropOpt "id").isNullish = false) (h : Consistent s) :
    Consistent (run today actions s) ∧ (run today actions s).categories = s.categories := by
  induction actions generalizing s with
  | nil => exact ⟨h, rfl⟩
  | cons a rest ih =>
    have hcat := step_categories today a s
    have hnext := ih (step today a s) (by rw [hcat]; exact hid) (step_consistent today a s hid h)
    exact ⟨hnext.1, hnext.2.trans hcat⟩

end TransactionForm

/-- C14: through the life of the form (actions before the categories are
loaded, the load, actions after it), with loaded categories that carry an id,
the form's `type` is a string and its `category` is either empty or the string
form of the id of a loaded category whose `type` is the form's current type.
In particular a click on a type button sets that type and always clears the
category, whatever the state. -/
theorem category_consistent_invariant (today : String) (loaded : List JSVal)
    (before after : List TransactionForm.Action)
    (hid : ∀ c ∈ loaded, (c.getPropOpt "id").isNullish = false) :
    (∃ t, (TransactionForm.lifecycle today loaded before after).formData.getPropOpt "type"
          = .str t
        ∧ ((TransactionForm.lifecycle today loaded before after).formData.getPropOpt
              "category" = .str ""
          ∨ ∃ c ∈ loaded, c.getPropOpt "type" = .str t
              ∧ (TransactionForm.lifecycle today loaded before after).formData.getPropOpt
                  "category" = .str (c.getPropOpt "id").toJSString))
      ∧ ∀ (s : TransactionForm.State) (income : Bool),
          (TransactionForm.step today (.selectType income) s).formData.getPropOpt "category"
              = .str ""
            ∧ (TransactionForm.step today (.selectType income) s).formData.getPropOpt "type"
              = .str (if income then "income" else "expense") := by
  constructor
  · -- before the load no category is loaded, so the selected category is empty
    have hfirst := TransactionForm.run_consistent today before
      (TransactionForm.initialState today) (by intro c hc; cases hc)
      (TransactionForm.consistent_default today [])
    have hloadedState : TransactionForm.Consistent
        { TransactionForm.run today before (TransactionForm.initialState today) with
          categories := loaded } := by
      obtain ⟨⟨fields, t, hf, ht, hc⟩, hcats⟩ := hfirst
      refine ⟨fields, t, hf, ht, ?_⟩
      rcases hc with hempty | ⟨c, hmem, _⟩
      · exact Or.inl hempty
      · rw [hcats] at hmem
        cases hmem
    have hlast := TransactionForm.run_consistent today after _ hid hloadedState
    obtain ⟨⟨fields, t, hf, ht, hc⟩, hcats⟩ := hlast
    simp only [TransactionForm.lifecycle]
    refine ⟨t, ?_, ?_⟩
    · simp [hf, JSVal.getPropOpt, JSVal.getProp, ht]
    · rcases hc with hempty | ⟨c, hmem, hct, hcc⟩
      · left
        simp [hf, JSVal.getPropOpt, JSVal.getProp, hempty]
      · right
        rw [hcats] at hmem
        exact ⟨c, hmem, hct, by simp [hf, JSVal.getPropOpt, JSVal.getProp, hcc]⟩
  · intro s income
    simp only [TransactionForm.step, TransactionForm.selectType]
    cases s.formData <;>
      simp [TransactionForm.spreadSet, JSVal.getPropOpt, JSVal.getProp, JSON.setField,
        JSVal.lookupField, JSON.lookupField_setField_self, JSON.lookupField_setField_ne]

/-- Witness of C14: with categories `1` (income) and `2` (expense) loaded,
after an amount edit, a switch to income and the choice of the first listed
category, the form holds category `"1"`, an income category. -/
theorem category_consistent_invariant_witness :
    ∃ t, (TransactionForm.lifecycle "2025-02-01" sampleCategories [.edit .amount "3"]
            [.selectType true, .chooseOption 1]).formData.getPropOpt "type" = .str t
        ∧ ((TransactionForm.lifecycle "2025-02-01" sampleCategories [.edit .amount "3"]
              [.selectType true, .chooseOption 1]).formData.getPropOpt "category" = .str ""
          ∨ ∃ c ∈ sampleCategories, c.getPropOpt "type" = .str t
              ∧ (TransactionForm.lifecycle "2025-02-01" sampleCategories [.edit .amount "3"]
                  [.selectType true, .chooseOption 1]).formData.getPropOpt "category"
                = .str (c.getPropOpt "id").toJSString) :=
  (category_consistent_invariant "2025-02-01" sampleCategories [.edit .amount "3"]
    [.selectType true, .chooseOption 1] (by decide)).1

/-! ## List state of the components -/

theorem normalize_isArray (data : JSVal) (hn : data.isNullish = false) :
    (match (data.getPropOpt "results").or data with
      | .arr xs => xs
      | _ => []) = specListOfPayload data := by
  cases data with
  | undefined => simp [JSVal.isNullish] at hn
  | null => simp [JSVal.isNullish] at hn
  | obj fields =>
    simp only [JSVal.getPropOpt, JSVal.getProp, specListOfPayload, JSVal.or]
    cases hres : JSVal.lookupField "results" fields with
    | num n =>
      cases n with
      | fin q => by_cases hq : q = 0 <;> simp [JSVal.truthy, hq]
      | _ => simp [JSVal.truthy]
    | bool b => cases b <;> simp [JSVal.truthy]
    | str txt => by_cases htxt : txt = "" <;> simp [JSVal.truthy, htxt]
    | _ => simp [JSVal.truthy]
  | arr xs =>
    have hne : ¬ ("results" = "length") := by decide
    simp [JSVal.getPropOpt, JSVal.getProp, specListOfPayload, JSVal.or, JSVal.truthy, hne]
  | str txt =>
    have hne : ¬ ("results" = "length") := by decide
    simp [JSVal.getPropOpt, JSVal.getProp, specListOfPayload, JSVal.or, JSVal.truthy, hne]
  | _ => simp [JSVal.getPropOpt, JSVal.getProp, specListOfPayload, JSVal.or, JSVal.truthy]

namespace TransactionForm

theorem fetchCategories_value (api : Api) (w : World) :
    (fetchCategories api w).1
      = .ok (specListOfOutcome (transactionService.getCategories api w).1) := by
  simp only [fetchCategories, JS.tryCatch, JS.tryCatchFinally, bind, JS.seq, JS.lift,
    JS.consoleError, pure, JS.ret]
  rcases hgc : transactionService.getCategories api w with ⟨r, w1⟩
  cases r with
  | error e => simp [specListOfOutcome]
  | ok data =>
    by_cases hn : data.isNullish = true
    · cases data <;> simp [JSVal.isNullish] at hn <;>
        simp [JSVal.getProp, specListOfOutcome, specListOfPayload]
    · have hn2 : data.isNullish = false := by simpa using hn
      have hnorm := normalize_isArray data hn2
      simp only [JSVal.getProp_of_not_nullish data "results" hn2, specListOfOutcome]
      rw [← hnorm]
      cases (data.getPropOpt "results").or data <;> rfl

end TransactionForm

namespace Dashboard

theorem fetchRecent_value (api : Api) (w : World) :
    (fetchRecent api w).1
      = .ok ((specListOfOutcome (transactionService.getTransactions api [] w).1).take 5) := by
  simp only [fetchRecent, JS.tryCatch, JS.tryCatchFinally, bind, JS.seq, JS.lift,
    JS.consoleError, pure, JS.ret]
  rcases hgt : transactionService.getTransactions api [] w with ⟨r, w1⟩
  cases r with
  | error e => simp [specListOfOutcome]
  | ok data =>
    by_cases hn : data.isNullish = true
    · cases data <;> simp [JSVal.isNullish] at hn <;>
        simp [JSVal.getProp, specListOfOutcome, specListOfPayload]
    · have hn2 : data.isNullish = false := by simpa using hn
      have hnorm := normalize_isArray data hn2
      simp only [JSVal.getProp_of_not_nullish data "results" hn2, specListOfOutcome]
      rw [← hnorm]
      cases (data.getPropOpt "results").or data <;> simp [JS.ret]

end Dashboard

namespace Dashboard

theorem fetchData_recent (api : Api) (startDate endDate : JSVal) (s : State) (w : World) :
    (fetchData api startDate endDate s w).1.recentTransactions
      = (match transactionService.getSummary api startDate endDate w with
          | (.ok _, w1) =>
            (specListOfOutcome (transactionService.getTransactions api [] w1).1).take 5
          | (.error _, _) => s.recentTransactions) := by
  simp only [fetchData]
  rcases hsum : transactionService.getSummary api startDate endDate w with ⟨r, w1⟩
  cases r with
  | error e => rfl
  | ok summary =>
    have hvalue := fetchRecent_value api w1
    rcases hrec : fetchRecent api w1 with ⟨r2, w2⟩
    rw [hrec] at hvalue
    simp only at hvalue
    subst hvalue
    simp [hrec]

end Dashboard

/-- C15: `fetchCategories` sets `categories` to the normalised outcome of the
`getCategories` call: the bare array, or the `results` array of an envelope,
and the empty list for any other returned payload or a thrown error.  When the
summary request of `fetchData` succeeds, `recentTransactions` is set to the
first five elements of the normalised outcome of the `getTransactions` call,
hence a prefix of it of length at most 5; when the summary request fails,
`recentTransactions` is not changed.  So a list of at most five stays one. -/
theorem list_state_array_semantics (api : Api) (startDate endDate : JSVal)
    (s : Dashboard.State) (w : World) :
    (TransactionForm.fetchCategories api w).1
        = .ok (specListOfOutcome (transactionService.getCategories api w).1)
      ∧ (∀ summary w1,
          transactionService.getSummary api startDate endDate w = (.ok summary, w1) →
          (Dashboard.fetchData api startDate endDate s w).1.recentTransactions
              = (specListOfOutcome (transactionService.getTransactions api [] w1).1).take 5
            ∧ (Dashboard.fetchData api startDate endDate s w).1.recentTransactions
              <+: specListOfOutcome (transactionService.getTransactions api [] w1).1
            ∧ (Dashboard.fetchData api startDate endDate s w).1.recentTransactions.length
              ≤ 5)
      ∧ (∀ e w1, transactionService.getSummary api startDate endDate w = (.error e, w1) →
          (Dashboard.fetchData api startDate endDate s w).1.recentTransactions
            = s.recentTransactions)
      ∧ (s.recentTransactions.length ≤ 5 →
          (Dashboard.fetchData api startDate endDate s w).1.recentTransactions.length ≤ 5)
      ∧ specListOfPayload .null = [] ∧ specListOfPayload (.obj []) = []
      ∧ specListOfPayload (.obj [("results", .null)]) = [] := by
  have hrecent := Dashboard.fetchData_recent api startDate endDate s w
  refine ⟨TransactionForm.fetchCategories_value api w, ?_, ?_, ?_, rfl, rfl, rfl⟩
  · intro summary w1 hsum
    rw [hsum] at hrecent
    simp only at hrecent
    rw [hrecent]
    exact ⟨rfl, List.take_prefix _ _, List.length_take_le _ _⟩
  · intro e w1 hsum
    rw [hsum] at hrecent
    exact hrecent
  · intro hlen
    rw [hrecent]
    rcases transactionService.getSummary api startDate endDate w with ⟨r, w1⟩
    cases r with
    | error e => exact hlen
    | ok summary => exact List.length_take_le _ _

/-- Witness of C15: on the first load, a bare list of six transactions leaves
at most five recent transactions. -/
theorem list_state_array_semantics_witness :
    (Dashboard.fetchData (constantApi sixTransactions) .undefined .undefined
        Dashboard.initialState ⟨[], [], []⟩).1.recentTransactions.length ≤ 5 :=
  (list_state_array_semantics (constantApi sixTransactions) .undefined .undefined
    Dashboard.initialState ⟨[], [], []⟩).2.2.2.1 (by decide)

end FinanceTracker
